import Mathlib

/-!
Verification of the GestureCanvas interaction core (App.tsx state machine,
utils/geometry.ts helpers).  The per-frame `update` function, the stroke
accumulator, the dissolve effect and the dwell selector are embedded as pure
Lean functions over exact rational arithmetic.  The only impure primitives of
the source (Math.sqrt, Math.sin, Math.random, and the DOM rectangle lookup)
are abstracted as oracle fields of an `Env` record; every other line of the
source logic is translated directly.
-/

namespace GC

/-- A 2-D point, used both for normalized detector coordinates and for pixel
coordinates (mirrors the Point interface of types.ts). -/
structure Pt where
  x : ℚ
  y : ℚ
deriving DecidableEq, Repr

/-- A finalized drawing path (types.ts DrawingPath). -/
structure DrawingPath where
  points : List Pt
  color : String
  width : ℚ
  isEraser : Bool
deriving DecidableEq, Repr

/-- A dissolve particle (types.ts Particle). -/
structure Particle where
  x : ℚ
  y : ℚ
  vx : ℚ
  vy : ℚ
  color : String
  size : ℚ
  life : ℚ
deriving DecidableEq, Repr

/-- Tool selection (types.ts ToolType). -/
inductive ToolType where
  | PEN
  | ERASER
deriving DecidableEq, Repr

/-- Application mode (App.tsx AppMode). -/
inductive AppMode where
  | IDLE
  | HOVER
  | DRAWING
  | MENU
deriving DecidableEq, Repr

open ToolType AppMode

/-- Screen rectangle as returned by getBoundingClientRect. -/
structure Rect where
  left : ℚ
  right : ℚ
  top : ℚ
  bottom : ℚ
deriving DecidableEq, Repr

/-- Oracles for the impure primitives used by App.tsx: Math.sqrt, Math.sin,
a Math.random stream indexed by draw count, and the DOM rectangle lookup
document.getElementById(id).getBoundingClientRect(). -/
structure Env where
  sqrtQ : ℚ → ℚ
  sinQ : ℚ → ℚ
  rand : ℕ → ℚ
  rects : String → Option Rect

/-- The detector-derived data of one frame with a hand present: the two raw
normalized points the code may use (landmarks[8] and getPinchMidpoint), the
hand size, the pinch ratio, and the boolean gesture classifier outputs. -/
structure DetFrame where
  indexTip : Pt
  pinchMid : Pt
  handSize : ℚ
  pinchVal : ℚ
  openPalm : Bool
  victory : Bool
  indexUp : Bool
deriving DecidableEq, Repr

/-- One tick of input to `update`: the clock (Date.now(), ms), the canvas
width/height in pixels, and the latest landmark-derived data (none when no
hand was detected). -/
structure Frame where
  now : ℚ
  width : ℚ
  height : ℚ
  det : Option DetFrame
deriving DecidableEq, Repr

/-- The mutable state record of App.tsx (state.current), restricted to the
fields touched by the interaction core.  `randIdx` counts Math.random draws
consumed so far; `clicks` is an instrumentation log recording each selection
event fired by triggerClick, in order (the code's observable side effect). -/
structure AppState where
  paths : List DrawingPath
  currentPath : List Pt
  particles : List Particle
  tool : ToolType
  color : String
  size : ℚ
  mode : AppMode
  consecutivePinchFrames : ℤ
  consecutiveOpenFrames : ℕ
  cursorPos : Pt
  smoothedPos : Option Pt
  handSize : ℚ
  isMenuOpen : Bool
  selectionProgress : ℚ
  hoveredId : Option String
  lastGestureTime : ℚ
  randIdx : ℕ
  clicks : List String
deriving DecidableEq, Repr

/-- Initial value of state.current (App.tsx lines 37-66). -/
def initState : AppState where
  paths := []
  currentPath := []
  particles := []
  tool := PEN
  color := "#00FF00"
  size := 5
  mode := IDLE
  consecutivePinchFrames := 0
  consecutiveOpenFrames := 0
  cursorPos := ⟨0, 0⟩
  smoothedPos := none
  handSize := 0
  isMenuOpen := false
  selectionProgress := 0
  hoveredId := none
  lastGestureTime := 0
  randIdx := 0
  clicks := []

/-- Configuration constant PINCH_START_THRESHOLD = 0.09. -/
def PINCH_START_THRESHOLD : ℚ := 9/100

/-- Configuration constant PINCH_END_THRESHOLD = 0.14. -/
def PINCH_END_THRESHOLD : ℚ := 14/100

/-- Configuration constant PINCH_DEBOUNCE_FRAMES = 3. -/
def PINCH_DEBOUNCE_FRAMES : ℤ := 3

/-- Configuration constant MIN_DRAW_DIST_PX = 2. -/
def MIN_DRAW_DIST_PX : ℚ := 2

/-- Configuration constant DWELL_TIME_MS = 600. -/
def DWELL_TIME_MS : ℚ := 600

/-- Configuration constant FRAME_INTERVAL = 1000 / TARGET_FPS = 1000/30. -/
def FRAME_INTERVAL : ℚ := 1000/30

/-- Linear interpolation (utils/geometry.ts lerp). -/
def lerp (start finish t : ℚ) : ℚ :=
  start * (1 - t) + finish * t

/-- Safe-zone predicate (utils/geometry.ts isInSafeZone): strict bounds
0.05 < x < 0.95 and 0.05 < y < 0.95. -/
def isInSafeZone (p : Pt) : Bool :=
  decide (p.x > 1/20) && decide (p.x < 19/20) && decide (p.y > 1/20) && decide (p.y < 19/20)

/-- startStroke (App.tsx lines 293-296): the current path becomes the single
given point. -/
def startStroke (p : Pt) (s : AppState) : AppState :=
  { s with currentPath := [p] }

/-- addPointToStroke (App.tsx lines 298-309): defensive no-op on an empty
current path; otherwise append only when the squared distance from the last
recorded point strictly exceeds MIN_DRAW_DIST_PX squared. -/
def addPointToStroke (p : Pt) (s : AppState) : AppState :=
  match s.currentPath.getLast? with
  | none => s
  | some lastP =>
    if (lastP.x - p.x)^2 + (lastP.y - p.y)^2 > MIN_DRAW_DIST_PX * MIN_DRAW_DIST_PX then
      { s with currentPath := s.currentPath ++ [p] }
    else s

/-- endStroke (App.tsx lines 311-322): if the current path is non-empty,
push it as a finalized DrawingPath capturing the current tool state, and
clear the current path; otherwise do nothing. -/
def endStroke (s : AppState) : AppState :=
  if s.currentPath.isEmpty then s
  else
    { s with
      paths := s.paths ++
        [{ points := s.currentPath
           color := s.color
           width := s.size
           isEraser := decide (s.tool = ERASER) }]
      currentPath := [] }

/-- The loop for(i = 0; i < len; i += 4): every 4th element starting at
index 0. -/
def everyFourth : List Pt → List Pt
  | [] => []
  | p :: rest => p :: everyFourth (rest.drop 3)
termination_by l => l.length
decreasing_by
  simp only [List.length_cons, List.length_drop]
  omega

/-- Spawn one particle per sampled point (body of the inner loop of
triggerDissolve, App.tsx lines 329-339), threading the Math.random draw
index: vx, vy and size each consume one draw, in that order. -/
def spawnParticles (env : Env) (color : String) : List Pt → ℕ → List Particle × ℕ
  | [], k => ([], k)
  | p :: rest, k =>
    let part : Particle :=
      { x := p.x
        y := p.y
        vx := (env.rand k - 1/2) * 4
        vy := env.rand (k + 1) * 5 + 2
        color := color
        size := env.rand (k + 2) * 3 + 1
        life := 1 }
    let tail := spawnParticles env color rest (k + 3)
    (part :: tail.1, tail.2)

/-- Particle spawning over all finalized paths, in order. -/
def spawnAll (env : Env) : List DrawingPath → ℕ → List Particle × ℕ
  | [], k => ([], k)
  | path :: rest, k =>
    let c := if path.isEraser then "white" else path.color
    let here := spawnParticles env c (everyFourth path.points) k
    let tail := spawnAll env rest here.2
    (here.1 ++ tail.1, tail.2)

/-- triggerDissolve (App.tsx lines 324-343): no-op when there are no
finalized paths; otherwise spawn particles from every 4th point of every
path, then clear the path collection and the in-progress stroke. -/
def triggerDissolve (env : Env) (s : AppState) : AppState :=
  if s.paths.isEmpty then s
  else
    let spawned := spawnAll env s.paths s.randIdx
    { s with
      particles := s.particles ++ spawned.1
      randIdx := spawned.2
      paths := []
      currentPath := [] }

/-- toggleMenu (App.tsx lines 284-291): flip the menu flag, stamp the
gesture time, set the mode from the new flag, and finalize any in-progress
stroke. -/
def toggleMenu (time : ℚ) (s : AppState) : AppState :=
  let s1 := { s with isMenuOpen := !s.isMenuOpen, lastGestureTime := time }
  let s2 := { s1 with mode := if s1.isMenuOpen then MENU else HOVER }
  if s2.currentPath.length > 0 then endStroke s2 else s2

/-- The fixed, ordered id list probed by handleUIInteraction
(App.tsx line 349). -/
def menuIds : List String :=
  ["btn-pen", "btn-eraser",
   "btn-color-0", "btn-color-1", "btn-color-2", "btn-color-3", "btn-color-4",
   "btn-size-0", "btn-size-1", "btn-size-2", "btn-size-3"]

/-- Point-in-rectangle test of App.tsx line 357 (closed bounds). -/
def rectContains (r : Rect) (x y : ℚ) : Bool :=
  decide (x ≥ r.left) && decide (x ≤ r.right) && decide (y ≥ r.top) && decide (y ≤ r.bottom)

/-- First-match hit test over the id list (App.tsx lines 350-362): skip ids
whose element is absent, stop at the first containing rectangle. -/
def findHit (env : Env) (x y : ℚ) : List String → Option String
  | [] => none
  | id :: rest =>
    match env.rects id with
    | some r => if rectContains r x y then some id else findHit env x y rest
    | none => findHit env x y rest

/-- The color table of triggerClick (App.tsx line 387). -/
def clickColors : List String :=
  ["#FFFFFF", "#FF0000", "#00FF00", "#0000FF", "#FFFF00"]

/-- The size table of triggerClick (App.tsx line 391). -/
def clickSizes : List ℚ := [2, 5, 10, 15]

/-- parseInt(id.split('-')[2]) for ids of the shape prefix-name-digit. -/
def idIndex (id : String) : ℕ :=
  (id.drop 10).toNat!

/-- triggerClick (App.tsx lines 382-406), restricted to its state effect;
the fired id is appended to the instrumentation log `clicks`. -/
def triggerClick (id : String) (s : AppState) : AppState :=
  let s1 :=
    if id = "btn-pen" then { s with tool := PEN }
    else if id = "btn-eraser" then { s with tool := ERASER }
    else if id.startsWith ("btn-color-") then
      { s with color := clickColors.getD (idIndex id) s.color }
    else if id.startsWith ("btn-size-") then
      { s with size := clickSizes.getD ((id.drop 9).toNat!) s.size }
    else s
  { s1 with clicks := s1.clicks ++ [id] }

/-- handleUIInteraction (App.tsx lines 345-380): hit-test the cursor; on a
changed hit reset the dwell progress, on a stable hit accumulate frame time
and fire the selection once the dwell threshold is reached, on no hit clear
both the hovered id and the progress. -/
def handleUIInteraction (env : Env) (s : AppState) : AppState :=
  match findHit env s.cursorPos.x s.cursorPos.y menuIds with
  | some hit =>
    if s.hoveredId ≠ some hit then
      { s with hoveredId := some hit, selectionProgress := 0 }
    else
      let s1 := { s with selectionProgress := s.selectionProgress + FRAME_INTERVAL }
      if s1.selectionProgress ≥ DWELL_TIME_MS then
        let s2 := triggerClick hit s1
        { s2 with selectionProgress := 0, hoveredId := none }
      else s1
  | none => { s with hoveredId := none, selectionProgress := 0 }

/-- One particle physics step (App.tsx lines 144-146): horizontal sinusoidal
drift keyed to the pre-update vertical position, then vertical velocity,
then life decay. -/
def stepParticle (env : Env) (p : Particle) : Particle :=
  { p with
    x := p.x + p.vx + env.sinQ (p.y * (1/20)) * (1/2)
    y := p.y + p.vy
    life := p.life - 1/50 }

/-- The particle list after one physics tick (App.tsx lines 141-150):
advance every particle and keep those still alive and above the bottom
edge; the whole phase is skipped when there are no particles. -/
def advanceParticles (env : Env) (height : ℚ) (ps : List Particle) : List Particle :=
  if ps.isEmpty then ps
  else
    (ps.map (stepParticle env)).filter
      (fun p => decide (p.life > 0) && decide (p.y < height))

/-- Particle physics phase of update: only the particles field changes. -/
def stepParticles (env : Env) (height : ℚ) (s : AppState) : AppState :=
  { s with particles := advanceParticles env height s.particles }

/-- Open-palm debounce step (App.tsx lines 218-226), run only when the
menu-toggle cooldown has elapsed: count consecutive open-palm frames and
toggle the menu after more than 5 of them. -/
def palmStep (now : ℚ) (openPalm : Bool) (s : AppState) : AppState :=
  if openPalm then
    let s1 := { s with consecutiveOpenFrames := s.consecutiveOpenFrames + 1 }
    if s1.consecutiveOpenFrames > 5 then
      let s2 := toggleMenu now s1
      { s2 with consecutiveOpenFrames := 0 }
    else s1
  else { s with consecutiveOpenFrames := 0 }

/-- Mode-specific logic (App.tsx lines 236-279): menu interaction when the
menu is open; otherwise the pinch entry/exit state machine with hysteresis
and debounce. -/
def modeSpecific (env : Env) (d : DetFrame) (s : AppState) : AppState :=
  if s.isMenuOpen then
    let s1 := { s with mode := MENU }
    if d.indexUp then handleUIInteraction env s1
    else { s1 with hoveredId := none, selectionProgress := 0 }
  else
    if s.mode = DRAWING then
      if d.pinchVal > PINCH_END_THRESHOLD then
        let s1 := { s with consecutivePinchFrames := s.consecutivePinchFrames - 1 }
        if s1.consecutivePinchFrames < 0 then
          let s2 := endStroke s1
          { s2 with mode := HOVER }
        else s1
      else
        let s1 := { s with consecutivePinchFrames := PINCH_DEBOUNCE_FRAMES }
        addPointToStroke s1.cursorPos s1
    else
      if d.pinchVal < PINCH_START_THRESHOLD then
        let s1 := { s with consecutivePinchFrames := s.consecutivePinchFrames + 1 }
        if s1.consecutivePinchFrames > PINCH_DEBOUNCE_FRAMES then
          let s2 := startStroke s1.cursorPos s1
          { s2 with mode := DRAWING }
        else s1
      else
        { s with consecutivePinchFrames := 0, mode := HOVER }

/-- The speed-adaptive smoothing phase (App.tsx lines 186-210): first sample
adopts the raw pixel point; later samples blend by a speed-dependent alpha
in [0.1, 0.8] ramping over an 80-pixel reference distance. -/
def smoothTarget (env : Env) (prev : Option Pt) (currX currY : ℚ) : Pt :=
  match prev with
  | none => ⟨currX, currY⟩
  | some sp =>
    let dist := env.sqrtQ ((currX - sp.x)^2 + (currY - sp.y)^2)
    let speedFactor := min 1 (dist / 80)
    let alpha := lerp (1/10) (8/10) speedFactor
    ⟨lerp sp.x currX alpha, lerp sp.y currY alpha⟩

/-- The raw normalized point used as cursor source (App.tsx lines 164-173):
the index tip when the menu is open, else the pinch midpoint. -/
def rawOf (menuOpen : Bool) (d : DetFrame) : Pt :=
  if menuOpen then d.indexTip else d.pinchMid

/-- The coordinate conversion of App.tsx lines 175-176: the horizontal
coordinate is mirrored (rawX = 1 - x), the vertical one is kept. -/
def mirrored (p : Pt) : Pt :=
  ⟨1 - p.x, p.y⟩

/-- Result of the out-of-zone branch (App.tsx lines 179-183): finalize a
running stroke and force IDLE; the smoothed position is left alone. -/
def outOfZoneResult (d : DetFrame) (s : AppState) : AppState :=
  let s1 := { s with handSize := d.handSize }
  { (if s1.mode = DRAWING then endStroke s1 else s1) with mode := IDLE }

/-- The state after the smoothing phase (App.tsx lines 161, 185-210): hand
size stored, raw point mirrored, converted to pixels, filtered, and copied
to the cursor. -/
def smoothedState (env : Env) (width height : ℚ) (d : DetFrame) (s : AppState) : AppState :=
  let raw := mirrored (rawOf s.isMenuOpen d)
  let newSm := smoothTarget env s.smoothedPos (raw.x * width) (raw.y * height)
  { s with handSize := d.handSize, smoothedPos := some newSm, cursorPos := newSm }

/-- The global-gesture phase (App.tsx lines 215-233), reached only when the
mode is not DRAWING: open-palm debounce behind the 1-second cooldown, then
the victory clear gesture which aborts the rest of the frame. -/
def gesturePhase (env : Env) (now : ℚ) (d : DetFrame) (s2 : AppState) : AppState :=
  let s3 :=
    if now - s2.lastGestureTime > 1000 then palmStep now d.openPalm s2
    else s2
  if d.victory && !s3.isMenuOpen then triggerDissolve env s3
  else modeSpecific env d s3

/-- The landmarks-present part of update (App.tsx lines 160-279): store the
hand size, pick and mirror the raw point, zone check, smoothing, global
gestures (only outside DRAWING) and the mode-specific state machine, in
source order. -/
def updateDet (env : Env) (now width height : ℚ) (d : DetFrame) (s : AppState) : AppState :=
  if !isInSafeZone (mirrored (rawOf s.isMenuOpen d)) then
    outOfZoneResult d s
  else
    let s2 := smoothedState env width height d s
    if s2.mode ≠ DRAWING then gesturePhase env now d s2
    else modeSpecific env d s2

/-- The per-frame update (App.tsx lines 135-280): particle physics, then the
loss-of-tracking branch (finalize, force IDLE, clear the filter) or the
landmark-processing branch. -/
def update (env : Env) (f : Frame) (s0 : AppState) : AppState :=
  let s := stepParticles env f.height s0
  match f.det with
  | none =>
    let s1 := if s.mode = DRAWING then endStroke s else s
    { s1 with mode := IDLE, smoothedPos := none }
  | some d => updateDet env f.now f.width f.height d s

/-- Folding `update` over a list of frames. -/
def updates (env : Env) (fs : List Frame) (s : AppState) : AppState :=
  fs.foldl (fun s f => update env f s) s

/-- Iterating handleUIInteraction a number of frames with the cursor held
still (the dwell-selection scenario). -/
def uiIter (env : Env) : ℕ → AppState → AppState
  | 0, s => s
  | n + 1, s => uiIter env n (handleUIInteraction env s)

/-- States reachable from the initial state by per-frame updates. -/
inductive Reachable (env : Env) : AppState → Prop
  | init : Reachable env initState
  | step {s : AppState} (f : Frame) : Reachable env s → Reachable env (update env f s)

/-- How the collection of finalized paths may change across one frame: it is
left alone, extended by exactly one newly finalized path, or emptied in bulk
by a clear. -/
def PathsEvolve (a b : AppState) : Prop :=
  b.paths = a.paths ∨ (∃ p, b.paths = a.paths ++ [p]) ∨ b.paths = []

/-- A qualifying pinch-entry frame: a hand is present with the given pinch
ratio, no open-palm or victory gesture fires, and the mirrored pinch
midpoint is inside the safe zone. -/
def entryFrame (r : ℚ) (f : Frame) : Prop :=
  ∃ d, f.det = some d ∧ d.pinchVal = r ∧ d.openPalm = false ∧ d.victory = false ∧
    isInSafeZone (mirrored d.pinchMid) = true

/-- A frame that keeps a running stroke alive: a hand is present, its pinch
ratio is at most the end threshold, and the mirrored pinch midpoint is
inside the safe zone. -/
def drawFrame (f : Frame) : Prop :=
  ∃ d, f.det = some d ∧ d.pinchVal ≤ PINCH_END_THRESHOLD ∧
    isInSafeZone (mirrored d.pinchMid) = true

/-- A concrete environment whose oracles are constant. -/
def env0 : Env where
  sqrtQ := fun _ => 0
  sinQ := fun _ => 0
  rand := fun _ => 0
  rects := fun _ => none

/-- A concrete environment exposing one menu rectangle for btn-pen. -/
def envR : Env where
  sqrtQ := fun _ => 0
  sinQ := fun _ => 0
  rand := fun _ => 0
  rects := fun id => if id = "btn-pen" then some ⟨0, 100, 0, 100⟩ else none

/-- A concrete detector frame: centered hand, deep pinch (ratio 0.05). -/
def detPinch : DetFrame where
  indexTip := ⟨1/2, 1/2⟩
  pinchMid := ⟨1/2, 1/2⟩
  handSize := 1/10
  pinchVal := 1/20
  openPalm := false
  victory := false
  indexUp := false

/-- A concrete frame carrying detPinch on a 1000 by 1000 canvas. -/
def framePinch : Frame where
  now := 0
  width := 1000
  height := 1000
  det := some detPinch

/-- A concrete frame with ratio 0.20 (above the end threshold). -/
def frameRelease : Frame where
  now := 0
  width := 1000
  height := 1000
  det := some { detPinch with pinchVal := 1/5 }

/-- A concrete frame with ratio 0.10 (inside the hysteresis band). -/
def frameBandLo : Frame where
  now := 0
  width := 1000
  height := 1000
  det := some { detPinch with pinchVal := 1/10 }

/-- A concrete frame with ratio 0.13 (inside the hysteresis band). -/
def frameBandHi : Frame where
  now := 0
  width := 1000
  height := 1000
  det := some { detPinch with pinchVal := 13/100 }

/-- A concrete frame whose hand sits at the mirrored edge of the safe zone
(raw x = 0.99, so the mirrored x is 0.01, outside the zone). -/
def frameEdge : Frame where
  now := 0
  width := 1000
  height := 1000
  det := some { detPinch with indexTip := ⟨99/100, 1/2⟩, pinchMid := ⟨99/100, 1/2⟩ }

/-- A concrete frame with no hand detected. -/
def frameLost : Frame where
  now := 0
  width := 1000
  height := 1000
  det := none

/-- A concrete state in the middle of a drawing session, with the exit
counter at its ceiling and a one-point stroke at (100, 100). -/
def drawState : AppState :=
  { initState with
    mode := DRAWING
    currentPath := [⟨100, 100⟩]
    consecutivePinchFrames := 3
    smoothedPos := some ⟨100, 100⟩
    cursorPos := ⟨100, 100⟩ }

/-- A concrete hovering state with a previously established filter value. -/
def hoverState : AppState :=
  { initState with mode := HOVER, smoothedPos := some ⟨7, 7⟩ }

/-- A concrete state holding the cursor at (50, 50), inside the btn-pen
rectangle of envR. -/
def dwellState : AppState :=
  { initState with cursorPos := ⟨50, 50⟩ }

/-- A concrete state owning one finalized five-point path. -/
def dissolveState : AppState :=
  { initState with
    paths := [{ points := [⟨0, 0⟩, ⟨10, 0⟩, ⟨20, 0⟩, ⟨30, 0⟩, ⟨40, 0⟩]
                color := "#00FF00"
                width := 5
                isEraser := false }] }

/-! Helper lemmas about the stroke accumulator. -/

theorem endStroke_currentPath (s : AppState) : (endStroke s).currentPath = [] := by
  unfold endStroke
  split
  · next h => exact List.isEmpty_iff.mp h
  · rfl

theorem endStroke_mode (s : AppState) : (endStroke s).mode = s.mode := by
  unfold endStroke
  split <;> rfl

theorem endStroke_smoothedPos (s : AppState) : (endStroke s).smoothedPos = s.smoothedPos := by
  unfold endStroke
  split <;> rfl

theorem endStroke_cursorPos (s : AppState) : (endStroke s).cursorPos = s.cursorPos := by
  unfold endStroke
  split <;> rfl

theorem endStroke_isMenuOpen (s : AppState) : (endStroke s).isMenuOpen = s.isMenuOpen := by
  unfold endStroke
  split <;> rfl

theorem endStroke_paths_of_ne (s : AppState) (h : s.currentPath ≠ []) :
    (endStroke s).paths = s.paths ++
      [{ points := s.currentPath, color := s.color, width := s.size,
         isEraser := decide (s.tool = ERASER) }] := by
  unfold endStroke
  split
  · next he => exact absurd (List.isEmpty_iff.mp he) h
  · rfl

theorem endStroke_paths_cases (s : AppState) :
    (endStroke s).paths = s.paths ∨ ∃ p, (endStroke s).paths = s.paths ++ [p] := by
  unfold endStroke
  split
  · exact Or.inl rfl
  · exact Or.inr ⟨_, rfl⟩

/-- Claim C9: endStroke is idempotent: a second consecutive call (with no
intervening startStroke or addPoint) is a no-op, because the first call
always leaves the active path empty; in fact the whole state is unchanged,
so in particular the path collection and the in-progress stroke are. -/
theorem endStroke_idempotent (s : AppState) : endStroke (endStroke s) = endStroke s := by
  have h : (endStroke s).currentPath = [] := endStroke_currentPath s
  conv_lhs => rw [endStroke, h]
  rfl

theorem addPointToStroke_of_empty (p : Pt) (s : AppState) (h : s.currentPath = []) :
    addPointToStroke p s = s := by
  unfold addPointToStroke
  simp [h]

theorem addPointToStroke_currentPath_head (p : Pt) (s : AppState) :
    (addPointToStroke p s).currentPath.head? = s.currentPath.head? := by
  unfold addPointToStroke
  rcases hl : s.currentPath.getLast? with _ | lastP
  · rfl
  · dsimp only
    split
    · have hne : s.currentPath ≠ [] := by
        intro hc
        rw [hc] at hl
        exact Option.noConfusion hl
      rcases hcp : s.currentPath with _ | ⟨a, t⟩
      · exact absurd hcp hne
      · simp [hcp]
    · rfl

theorem addPointToStroke_mode (p : Pt) (s : AppState) :
    (addPointToStroke p s).mode = s.mode := by
  unfold addPointToStroke
  rcases s.currentPath.getLast? with _ | lastP
  · rfl
  · dsimp only
    split <;> rfl

theorem addPointToStroke_paths (p : Pt) (s : AppState) :
    (addPointToStroke p s).paths = s.paths := by
  unfold addPointToStroke
  rcases s.currentPath.getLast? with _ | lastP
  · rfl
  · dsimp only
    split <;> rfl

theorem addPointToStroke_isMenuOpen (p : Pt) (s : AppState) :
    (addPointToStroke p s).isMenuOpen = s.isMenuOpen := by
  unfold addPointToStroke
  rcases s.currentPath.getLast? with _ | lastP
  · rfl
  · dsimp only
    split <;> rfl

theorem addPointToStroke_consecutivePinchFrames (p : Pt) (s : AppState) :
    (addPointToStroke p s).consecutivePinchFrames = s.consecutivePinchFrames := by
  unfold addPointToStroke
  rcases s.currentPath.getLast? with _ | lastP
  · rfl
  · dsimp only
    split <;> rfl

theorem addPointToStroke_ne_nil (p : Pt) (s : AppState) (h : s.currentPath ≠ []) :
    (addPointToStroke p s).currentPath ≠ [] := by
  unfold addPointToStroke
  rcases s.currentPath.getLast? with _ | lastP
  · exact h
  · dsimp only
    split
    · simp
    · exact h

/-- Claim C8: addPointToStroke appends exactly when the squared distance
from the last recorded point strictly exceeds 4 square pixels, is the
identity otherwise, is a defensive no-op on an empty active path, and a
whole sequence of points within 2 px of a singleton stroke never grows
it. -/
theorem addPoint_minimum_movement :
    (∀ (p : Pt) (s : AppState) (lastP : Pt), s.currentPath.getLast? = some lastP →
      (((addPointToStroke p s).currentPath = s.currentPath ++ [p]) ↔
        (lastP.x - p.x)^2 + (lastP.y - p.y)^2 > 4) ∧
      ((lastP.x - p.x)^2 + (lastP.y - p.y)^2 ≤ 4 → addPointToStroke p s = s)) ∧
    (∀ (s : AppState) (p0 : Pt) (ps : List Pt), s.currentPath = [p0] →
      (∀ p ∈ ps, (p0.x - p.x)^2 + (p0.y - p.y)^2 ≤ 4) →
      (ps.foldl (fun t q => addPointToStroke q t) s).currentPath = [p0]) ∧
    (∀ (p : Pt) (s : AppState), s.currentPath = [] → addPointToStroke p s = s) := by
  have hiff : ∀ (p : Pt) (s : AppState) (lastP : Pt), s.currentPath.getLast? = some lastP →
      (((addPointToStroke p s).currentPath = s.currentPath ++ [p]) ↔
        (lastP.x - p.x)^2 + (lastP.y - p.y)^2 > 4) ∧
      ((lastP.x - p.x)^2 + (lastP.y - p.y)^2 ≤ 4 → addPointToStroke p s = s) := by
    intro p s lastP hl
    have h4 : MIN_DRAW_DIST_PX * MIN_DRAW_DIST_PX = (4 : ℚ) := by norm_num [MIN_DRAW_DIST_PX]
    constructor
    · constructor
      · intro happ
        by_contra hle
        have hs : addPointToStroke p s = s := by
          unfold addPointToStroke
          rw [hl]
          dsimp only
          rw [h4, if_neg hle]
        rw [hs] at happ
        have hlen := congrArg List.length happ
        simp only [List.length_append, List.length_cons, List.length_nil] at hlen
        omega
      · intro hgt
        unfold addPointToStroke
        rw [hl]
        dsimp only
        rw [h4, if_pos hgt]
    · intro hle
      unfold addPointToStroke
      rw [hl]
      dsimp only
      rw [h4, if_neg (not_lt.mpr hle)]
  refine ⟨hiff, ?_, ?_⟩
  · intro s p0 ps
    induction ps generalizing s with
    | nil => intro hs _; exact hs
    | cons q qs ih =>
      intro hs hin
      have hl : s.currentPath.getLast? = some p0 := by rw [hs]; rfl
      have hstep : addPointToStroke q s = s :=
        (hiff q s p0 hl).2 (hin q (List.mem_cons_self q qs))
      simpa [List.foldl_cons, hstep] using
        ih s hs (fun p hp => hin p (List.mem_cons_of_mem q hp))
  · intro p s h
    exact addPointToStroke_of_empty p s h

/-- Claim C8 witness: a singleton stroke at the origin, fed three points at
squared distances 2, 4 and 4 (all within 2 px), never grows; and an empty
stroke ignores a point. -/
theorem addPoint_minimum_movement_witness :
    (([⟨1, 1⟩, ⟨2, 0⟩, ⟨0, 2⟩] : List Pt).foldl (fun t q => addPointToStroke q t)
      { initState with currentPath := [⟨0, 0⟩] }).currentPath = [⟨0, 0⟩] ∧
    addPointToStroke ⟨5, 5⟩ initState = initState := by
  constructor
  · exact addPoint_minimum_movement.2.1 _ ⟨0, 0⟩ _ rfl (by
      intro p hp
      simp only [List.mem_cons, List.not_mem_nil, or_false] at hp
      rcases hp with h | h | h <;> subst h <;> norm_num)
  · exact addPoint_minimum_movement.2.2 ⟨5, 5⟩ initState rfl

/-! Helper lemmas about dissolve particle spawning. -/

theorem everyFourth_length_aux (n : ℕ) :
    ∀ l : List Pt, l.length ≤ n → (everyFourth l).length = (l.length + 3) / 4 := by
  induction n with
  | zero =>
    intro l hl
    have hnil : l = [] := List.eq_nil_of_length_eq_zero (Nat.le_zero.mp hl)
    subst hnil
    simp [everyFourth]
  | succ n ih =>
    intro l hl
    cases l with
    | nil => simp [everyFourth]
    | cons p rest =>
      rw [everyFourth]
      have h1 : (rest.drop 3).length ≤ n := by
        simp only [List.length_cons] at hl
        simp only [List.length_drop]
        omega
      have hrec := ih _ h1
      simp only [List.length_cons, hrec, List.length_drop]
      omega

theorem everyFourth_length (l : List Pt) : (everyFourth l).length = (l.length + 3) / 4 :=
  everyFourth_length_aux l.length l (Nat.le_refl _)

theorem spawnParticles_length (env : Env) (c : String) (pts : List Pt) (k : ℕ) :
    (spawnParticles env c pts k).1.length = pts.length := by
  induction pts generalizing k with
  | nil => rfl
  | cons p rest ih => simp [spawnParticles, ih]

theorem spawnParticles_life (env : Env) (c : String) (pts : List Pt) (k : ℕ) :
    ∀ q ∈ (spawnParticles env c pts k).1, q.life = 1 := by
  induction pts generalizing k with
  | nil => intro q hq; simp [spawnParticles] at hq
  | cons p rest ih =>
    intro q hq
    simp only [spawnParticles, List.mem_cons] at hq
    rcases hq with hq | hq
    · rw [hq]
    · exact ih (k + 3) q hq

theorem spawnParticles_pos (env : Env) (c : String) (pts : List Pt) (k : ℕ) :
    (spawnParticles env c pts k).1.map (fun q => Pt.mk q.x q.y) = pts := by
  induction pts generalizing k with
  | nil => rfl
  | cons p rest ih => simp [spawnParticles, ih]

theorem spawnAll_length (env : Env) (paths : List DrawingPath) (k : ℕ) :
    (spawnAll env paths k).1.length =
      (paths.map (fun p => (p.points.length + 3) / 4)).sum := by
  induction paths generalizing k with
  | nil => rfl
  | cons path rest ih =>
    simp [spawnAll, spawnParticles_length, everyFourth_length, ih]

theorem spawnAll_life (env : Env) (paths : List DrawingPath) (k : ℕ) :
    ∀ q ∈ (spawnAll env paths k).1, q.life = 1 := by
  induction paths generalizing k with
  | nil => intro q hq; simp [spawnAll] at hq
  | cons path rest ih =>
    intro q hq
    simp only [spawnAll, List.mem_append] at hq
    rcases hq with hq | hq
    · exact spawnParticles_life env _ _ _ q hq
    · exact ih _ q hq

theorem spawnAll_pos (env : Env) (paths : List DrawingPath) (k : ℕ) :
    (spawnAll env paths k).1.map (fun q => Pt.mk q.x q.y) =
      (paths.map (fun p => everyFourth p.points)).flatten := by
  induction paths generalizing k with
  | nil => rfl
  | cons path rest ih =>
    simp [spawnAll, List.map_append, spawnParticles_pos, ih]

/-- Claim C6: dissolve on an empty path collection is the identity (the
in-progress stroke included); on a non-empty collection it empties the path
collection, discards the in-progress stroke, and appends one particle of
unit life per every-4th-sampled point of each path, hence exactly
ceil(n/4) = (n+3)/4 particles for a path of n points. -/
theorem triggerDissolve_spec (env : Env) (s : AppState) :
    (s.paths = [] → triggerDissolve env s = s) ∧
    (s.paths ≠ [] →
      (triggerDissolve env s).paths = [] ∧
      (triggerDissolve env s).currentPath = [] ∧
      ∃ ps : List Particle,
        (triggerDissolve env s).particles = s.particles ++ ps ∧
        ps.length = (s.paths.map (fun p => (p.points.length + 3) / 4)).sum ∧
        (∀ q ∈ ps, q.life = 1) ∧
        ps.map (fun q => Pt.mk q.x q.y) =
          (s.paths.map (fun p => everyFourth p.points)).flatten) := by
  constructor
  · intro h
    unfold triggerDissolve
    rw [if_pos (List.isEmpty_iff.mpr h)]
  · intro h
    unfold triggerDissolve
    rw [if_neg (by simpa [List.isEmpty_iff] using h)]
    refine ⟨rfl, rfl, (spawnAll env s.paths s.randIdx).1, rfl, ?_, ?_, ?_⟩
    · exact spawnAll_length env s.paths s.randIdx
    · exact spawnAll_life env s.paths s.randIdx
    · exact spawnAll_pos env s.paths s.randIdx

/-- Claim C6 witness: dissolving a state with one five-point path spawns
ceil(5/4) = 2 particles and clears the collection, while dissolving the
initial state (no paths) changes nothing. -/
theorem triggerDissolve_spec_witness :
    (triggerDissolve env0 dissolveState).paths = [] ∧
    (triggerDissolve env0 dissolveState).particles.length = 2 ∧
    triggerDissolve env0 initState = initState := by
  have h2 := (triggerDissolve_spec env0 dissolveState).2 (by
    intro hc
    exact by simp [dissolveState] at hc)
  refine ⟨h2.1, ?_, (triggerDissolve_spec env0 initState).1 rfl⟩
  rcases h2.2.2 with ⟨ps, hpart, hlen, _, _⟩
  rw [hpart, List.length_append, hlen]
  rfl

/-! Field-preservation lemmas for the per-frame phases. -/

theorem stepParticles_mode (env : Env) (h : ℚ) (s : AppState) :
    (stepParticles env h s).mode = s.mode := rfl

theorem stepParticles_currentPath (env : Env) (h : ℚ) (s : AppState) :
    (stepParticles env h s).currentPath = s.currentPath := rfl

theorem stepParticles_paths (env : Env) (h : ℚ) (s : AppState) :
    (stepParticles env h s).paths = s.paths := rfl

theorem stepParticles_smoothedPos (env : Env) (h : ℚ) (s : AppState) :
    (stepParticles env h s).smoothedPos = s.smoothedPos := rfl

theorem stepParticles_isMenuOpen (env : Env) (h : ℚ) (s : AppState) :
    (stepParticles env h s).isMenuOpen = s.isMenuOpen := rfl

theorem stepParticles_consecutivePinchFrames (env : Env) (h : ℚ) (s : AppState) :
    (stepParticles env h s).consecutivePinchFrames = s.consecutivePinchFrames := rfl

theorem smoothedState_mode (env : Env) (w h : ℚ) (d : DetFrame) (s : AppState) :
    (smoothedState env w h d s).mode = s.mode := rfl

theorem smoothedState_currentPath (env : Env) (w h : ℚ) (d : DetFrame) (s : AppState) :
    (smoothedState env w h d s).currentPath = s.currentPath := rfl

theorem smoothedState_paths (env : Env) (w h : ℚ) (d : DetFrame) (s : AppState) :
    (smoothedState env w h d s).paths = s.paths := rfl

theorem smoothedState_isMenuOpen (env : Env) (w h : ℚ) (d : DetFrame) (s : AppState) :
    (smoothedState env w h d s).isMenuOpen = s.isMenuOpen := rfl

theorem smoothedState_consecutivePinchFrames (env : Env) (w h : ℚ) (d : DetFrame) (s : AppState) :
    (smoothedState env w h d s).consecutivePinchFrames = s.consecutivePinchFrames := rfl

theorem smoothedState_lastGestureTime (env : Env) (w h : ℚ) (d : DetFrame) (s : AppState) :
    (smoothedState env w h d s).lastGestureTime = s.lastGestureTime := rfl

theorem update_det_none (env : Env) (f : Frame) (s : AppState) (hdet : f.det = none) :
    update env f s =
      { (if (stepParticles env f.height s).mode = DRAWING
          then endStroke (stepParticles env f.height s)
          else stepParticles env f.height s) with mode := IDLE, smoothedPos := none } := by
  unfold update
  rw [hdet]

theorem update_det_some (env : Env) (f : Frame) (d : DetFrame) (s : AppState)
    (hdet : f.det = some d) :
    update env f s = updateDet env f.now f.width f.height d (stepParticles env f.height s) := by
  unfold update
  rw [hdet]

theorem updateDet_eq_out (env : Env) (now w h : ℚ) (d : DetFrame) (s : AppState)
    (hzone : isInSafeZone (mirrored (rawOf s.isMenuOpen d)) = false) :
    updateDet env now w h d s = outOfZoneResult d s := by
  unfold updateDet
  rw [hzone]
  rfl

theorem updateDet_eq_draw (env : Env) (now w h : ℚ) (d : DetFrame) (s : AppState)
    (hzone : isInSafeZone (mirrored (rawOf s.isMenuOpen d)) = true)
    (hmode : s.mode = DRAWING) :
    updateDet env now w h d s = modeSpecific env d (smoothedState env w h d s) := by
  unfold updateDet
  rw [hzone]
  simp only [Bool.not_true, Bool.false_eq_true, if_false, smoothedState_mode, hmode]
  simp

theorem updateDet_eq_gesture (env : Env) (now w h : ℚ) (d : DetFrame) (s : AppState)
    (hzone : isInSafeZone (mirrored (rawOf s.isMenuOpen d)) = true)
    (hmode : s.mode ≠ DRAWING) :
    updateDet env now w h d s = gesturePhase env now d (smoothedState env w h d s) := by
  unfold updateDet
  rw [hzone]
  simp only [Bool.not_true, Bool.false_eq_true, if_false, smoothedState_mode]
  rw [if_pos hmode]

/-! Branch characterizations of the mode-specific state machine. -/

theorem modeSpecific_exit_keep (env : Env) (d : DetFrame) (s : AppState)
    (hmenu : s.isMenuOpen = false) (hmode : s.mode = DRAWING)
    (hr : d.pinchVal > PINCH_END_THRESHOLD) (hc : ¬(s.consecutivePinchFrames - 1 < 0)) :
    modeSpecific env d s = { s with consecutivePinchFrames := s.consecutivePinchFrames - 1 } := by
  unfold modeSpecific
  dsimp only
  rw [if_neg (by rw [hmenu]; exact Bool.false_ne_true), if_pos hmode, if_pos hr, if_neg hc]

theorem modeSpecific_exit_fire (env : Env) (d : DetFrame) (s : AppState)
    (hmenu : s.isMenuOpen = false) (hmode : s.mode = DRAWING)
    (hr : d.pinchVal > PINCH_END_THRESHOLD) (hc : s.consecutivePinchFrames - 1 < 0) :
    modeSpecific env d s =
      { endStroke { s with consecutivePinchFrames := s.consecutivePinchFrames - 1 } with
        mode := HOVER } := by
  unfold modeSpecific
  dsimp only
  rw [if_neg (by rw [hmenu]; exact Bool.false_ne_true), if_pos hmode, if_pos hr, if_pos hc]

theorem modeSpecific_hold (env : Env) (d : DetFrame) (s : AppState)
    (hmenu : s.isMenuOpen = false) (hmode : s.mode = DRAWING)
    (hr : ¬(d.pinchVal > PINCH_END_THRESHOLD)) :
    modeSpecific env d s =
      addPointToStroke s.cursorPos
        { s with consecutivePinchFrames := PINCH_DEBOUNCE_FRAMES } := by
  unfold modeSpecific
  dsimp only
  rw [if_neg (by rw [hmenu]; exact Bool.false_ne_true), if_pos hmode, if_neg hr]

theorem modeSpecific_entry_count (env : Env) (d : DetFrame) (s : AppState)
    (hmenu : s.isMenuOpen = false) (hmode : s.mode ≠ DRAWING)
    (hr : d.pinchVal < PINCH_START_THRESHOLD)
    (hc : ¬(s.consecutivePinchFrames + 1 > PINCH_DEBOUNCE_FRAMES)) :
    modeSpecific env d s = { s with consecutivePinchFrames := s.consecutivePinchFrames + 1 } := by
  unfold modeSpecific
  dsimp only
  rw [if_neg (by rw [hmenu]; exact Bool.false_ne_true), if_neg hmode, if_pos hr, if_neg hc]

theorem modeSpecific_entry_fire (env : Env) (d : DetFrame) (s : AppState)
    (hmenu : s.isMenuOpen = false) (hmode : s.mode ≠ DRAWING)
    (hr : d.pinchVal < PINCH_START_THRESHOLD)
    (hc : s.consecutivePinchFrames + 1 > PINCH_DEBOUNCE_FRAMES) :
    modeSpecific env d s =
      { s with currentPath := [s.cursorPos],
               consecutivePinchFrames := s.consecutivePinchFrames + 1,
               mode := DRAWING } := by
  unfold modeSpecific
  dsimp only
  rw [if_neg (by rw [hmenu]; exact Bool.false_ne_true), if_neg hmode, if_pos hr, if_pos hc]
  rfl

theorem modeSpecific_reset (env : Env) (d : DetFrame) (s : AppState)
    (hmenu : s.isMenuOpen = false) (hmode : s.mode ≠ DRAWING)
    (hr : ¬(d.pinchVal < PINCH_START_THRESHOLD)) :
    modeSpecific env d s = { s with consecutivePinchFrames := 0, mode := HOVER } := by
  unfold modeSpecific
  dsimp only
  rw [if_neg (by rw [hmenu]; exact Bool.false_ne_true), if_neg hmode, if_neg hr]

/-! Lemmas about the global-gesture phase. -/

theorem palmStep_of_false (now : ℚ) (s : AppState) :
    palmStep now false s = { s with consecutiveOpenFrames := 0 } := rfl

theorem gesturePhase_quiet (env : Env) (now : ℚ) (d : DetFrame) (s2 : AppState)
    (hpalm : d.openPalm = false) (hvic : d.victory = false) :
    gesturePhase env now d s2 = modeSpecific env d s2 ∨
    gesturePhase env now d s2 = modeSpecific env d { s2 with consecutiveOpenFrames := 0 } := by
  unfold gesturePhase
  rw [hpalm, hvic]
  by_cases hcool : now - s2.lastGestureTime > 1000
  · rw [if_pos hcool, palmStep_of_false]
    simp
  · rw [if_neg hcool]
    simp

/-! Preservation lemmas for the menu-interaction helpers. -/

theorem triggerClick_mode (id : String) (s : AppState) : (triggerClick id s).mode = s.mode := by
  unfold triggerClick
  dsimp only
  split_ifs <;> rfl

theorem triggerClick_paths (id : String) (s : AppState) :
    (triggerClick id s).paths = s.paths := by
  unfold triggerClick
  dsimp only
  split_ifs <;> rfl

theorem triggerClick_currentPath (id : String) (s : AppState) :
    (triggerClick id s).currentPath = s.currentPath := by
  unfold triggerClick
  dsimp only
  split_ifs <;> rfl

theorem triggerClick_smoothedPos (id : String) (s : AppState) :
    (triggerClick id s).smoothedPos = s.smoothedPos := by
  unfold triggerClick
  dsimp only
  split_ifs <;> rfl

theorem triggerClick_cursorPos (id : String) (s : AppState) :
    (triggerClick id s).cursorPos = s.cursorPos := by
  unfold triggerClick
  dsimp only
  split_ifs <;> rfl

theorem triggerClick_isMenuOpen (id : String) (s : AppState) :
    (triggerClick id s).isMenuOpen = s.isMenuOpen := by
  unfold triggerClick
  dsimp only
  split_ifs <;> rfl

theorem triggerClick_consecutivePinchFrames (id : String) (s : AppState) :
    (triggerClick id s).consecutivePinchFrames = s.consecutivePinchFrames := by
  unfold triggerClick
  dsimp only
  split_ifs <;> rfl

theorem triggerClick_lastGestureTime (id : String) (s : AppState) :
    (triggerClick id s).lastGestureTime = s.lastGestureTime := by
  unfold triggerClick
  dsimp only
  split_ifs <;> rfl

theorem triggerClick_clicks (id : String) (s : AppState) :
    (triggerClick id s).clicks = s.clicks ++ [id] := by
  unfold triggerClick
  dsimp only
  split_ifs <;> rfl

theorem handleUIInteraction_mode (env : Env) (s : AppState) :
    (handleUIInteraction env s).mode = s.mode := by
  unfold handleUIInteraction
  rcases findHit env s.cursorPos.x s.cursorPos.y menuIds with _ | hit
  · rfl
  · dsimp only
    split_ifs <;> simp [triggerClick_mode]

theorem handleUIInteraction_paths (env : Env) (s : AppState) :
    (handleUIInteraction env s).paths = s.paths := by
  unfold handleUIInteraction
  rcases findHit env s.cursorPos.x s.cursorPos.y menuIds with _ | hit
  · rfl
  · dsimp only
    split_ifs <;> simp [triggerClick_paths]

theorem handleUIInteraction_currentPath (env : Env) (s : AppState) :
    (handleUIInteraction env s).currentPath = s.currentPath := by
  unfold handleUIInteraction
  rcases findHit env s.cursorPos.x s.cursorPos.y menuIds with _ | hit
  · rfl
  · dsimp only
    split_ifs <;> simp [triggerClick_currentPath]

theorem handleUIInteraction_smoothedPos (env : Env) (s : AppState) :
    (handleUIInteraction env s).smoothedPos = s.smoothedPos := by
  unfold handleUIInteraction
  rcases findHit env s.cursorPos.x s.cursorPos.y menuIds with _ | hit
  · rfl
  · dsimp only
    split_ifs <;> simp [triggerClick_smoothedPos]

theorem handleUIInteraction_cursorPos (env : Env) (s : AppState) :
    (handleUIInteraction env s).cursorPos = s.cursorPos := by
  unfold handleUIInteraction
  rcases findHit env s.cursorPos.x s.cursorPos.y menuIds with _ | hit
  · rfl
  · dsimp only
    split_ifs <;> simp [triggerClick_cursorPos]

theorem handleUIInteraction_isMenuOpen (env : Env) (s : AppState) :
    (handleUIInteraction env s).isMenuOpen = s.isMenuOpen := by
  unfold handleUIInteraction
  rcases findHit env s.cursorPos.x s.cursorPos.y menuIds with _ | hit
  · rfl
  · dsimp only
    split_ifs <;> simp [triggerClick_isMenuOpen]

theorem handleUIInteraction_consecutivePinchFrames (env : Env) (s : AppState) :
    (handleUIInteraction env s).consecutivePinchFrames = s.consecutivePinchFrames := by
  unfold handleUIInteraction
  rcases findHit env s.cursorPos.x s.cursorPos.y menuIds with _ | hit
  · rfl
  · dsimp only
    split_ifs <;> simp [triggerClick_consecutivePinchFrames]

theorem handleUIInteraction_lastGestureTime (env : Env) (s : AppState) :
    (handleUIInteraction env s).lastGestureTime = s.lastGestureTime := by
  unfold handleUIInteraction
  rcases findHit env s.cursorPos.x s.cursorPos.y menuIds with _ | hit
  · rfl
  · dsimp only
    split_ifs <;> simp [triggerClick_lastGestureTime]

/-! Preservation lemmas for the global-gesture helpers. -/

theorem toggleMenu_smoothedPos (t : ℚ) (s : AppState) :
    (toggleMenu t s).smoothedPos = s.smoothedPos := by
  unfold toggleMenu
  dsimp only
  split_ifs <;> simp [endStroke_smoothedPos]

theorem toggleMenu_cursorPos (t : ℚ) (s : AppState) :
    (toggleMenu t s).cursorPos = s.cursorPos := by
  unfold toggleMenu
  dsimp only
  split_ifs <;> simp [endStroke_cursorPos]

theorem endStroke_consecutivePinchFrames (s : AppState) :
    (endStroke s).consecutivePinchFrames = s.consecutivePinchFrames := by
  unfold endStroke
  split <;> rfl

theorem toggleMenu_consecutivePinchFrames (t : ℚ) (s : AppState) :
    (toggleMenu t s).consecutivePinchFrames = s.consecutivePinchFrames := by
  unfold toggleMenu
  dsimp only
  split_ifs <;> simp [endStroke_consecutivePinchFrames]

theorem toggleMenu_mode_ne_drawing (t : ℚ) (s : AppState) :
    (toggleMenu t s).mode ≠ DRAWING := by
  unfold toggleMenu
  dsimp only
  split_ifs <;> simp [endStroke_mode]

theorem toggleMenu_currentPath (t : ℚ) (s : AppState) :
    (toggleMenu t s).currentPath = [] := by
  unfold toggleMenu
  dsimp only
  split_ifs with h1 <;>
    first
      | exact endStroke_currentPath _
      | (dsimp only
         exact List.eq_nil_of_length_eq_zero (by omega))

theorem endStroke_paths_from (X : AppState) (base : List DrawingPath) (hX : X.paths = base) :
    (endStroke X).paths = base ∨ ∃ p, (endStroke X).paths = base ++ [p] := by
  rcases endStroke_paths_cases X with h | ⟨p, hp⟩
  · rw [hX] at h
    exact Or.inl h
  · rw [hX] at hp
    exact Or.inr ⟨p, hp⟩

theorem toggleMenu_paths_cases (t : ℚ) (s : AppState) :
    (toggleMenu t s).paths = s.paths ∨ ∃ p, (toggleMenu t s).paths = s.paths ++ [p] := by
  unfold toggleMenu
  dsimp only
  split_ifs <;>
    first
      | exact endStroke_paths_from _ _ rfl
      | exact Or.inl rfl

theorem palmStep_smoothedPos (now : ℚ) (b : Bool) (s : AppState) :
    (palmStep now b s).smoothedPos = s.smoothedPos := by
  unfold palmStep
  dsimp only
  split_ifs <;> simp [toggleMenu_smoothedPos]

theorem palmStep_cursorPos (now : ℚ) (b : Bool) (s : AppState) :
    (palmStep now b s).cursorPos = s.cursorPos := by
  unfold palmStep
  dsimp only
  split_ifs <;> simp [toggleMenu_cursorPos]

theorem palmStep_consecutivePinchFrames (now : ℚ) (b : Bool) (s : AppState) :
    (palmStep now b s).consecutivePinchFrames = s.consecutivePinchFrames := by
  unfold palmStep
  dsimp only
  split_ifs <;> simp [toggleMenu_consecutivePinchFrames]

theorem palmStep_mode_cases (now : ℚ) (b : Bool) (s : AppState) :
    (palmStep now b s).mode = s.mode ∨ (palmStep now b s).mode ≠ DRAWING := by
  unfold palmStep
  dsimp only
  split_ifs
  · exact Or.inr (toggleMenu_mode_ne_drawing now _)
  · exact Or.inl rfl
  · exact Or.inl rfl

theorem palmStep_currentPath_cases (now : ℚ) (b : Bool) (s : AppState) :
    (palmStep now b s).currentPath = s.currentPath ∨ (palmStep now b s).currentPath = [] := by
  unfold palmStep
  dsimp only
  split_ifs
  · exact Or.inr (toggleMenu_currentPath now _)
  · exact Or.inl rfl
  · exact Or.inl rfl

theorem toggleMenu_paths_from (t : ℚ) (X : AppState) (base : List DrawingPath)
    (hX : X.paths = base) :
    (toggleMenu t X).paths = base ∨ ∃ p, (toggleMenu t X).paths = base ++ [p] := by
  rcases toggleMenu_paths_cases t X with h | ⟨p, hp⟩
  · rw [hX] at h
    exact Or.inl h
  · rw [hX] at hp
    exact Or.inr ⟨p, hp⟩

theorem palmStep_paths_cases (now : ℚ) (b : Bool) (s : AppState) :
    (palmStep now b s).paths = s.paths ∨ ∃ p, (palmStep now b s).paths = s.paths ++ [p] := by
  unfold palmStep
  dsimp only
  split_ifs
  · exact toggleMenu_paths_from now _ _ rfl
  · exact Or.inl rfl
  · exact Or.inl rfl

theorem triggerDissolve_mode (env : Env) (s : AppState) :
    (triggerDissolve env s).mode = s.mode := by
  unfold triggerDissolve
  split_ifs <;> rfl

theorem triggerDissolve_isMenuOpen (env : Env) (s : AppState) :
    (triggerDissolve env s).isMenuOpen = s.isMenuOpen := by
  unfold triggerDissolve
  split_ifs <;> rfl

theorem triggerDissolve_smoothedPos (env : Env) (s : AppState) :
    (triggerDissolve env s).smoothedPos = s.smoothedPos := by
  unfold triggerDissolve
  split_ifs <;> rfl

theorem triggerDissolve_cursorPos (env : Env) (s : AppState) :
    (triggerDissolve env s).cursorPos = s.cursorPos := by
  unfold triggerDissolve
  split_ifs <;> rfl

theorem triggerDissolve_consecutivePinchFrames (env : Env) (s : AppState) :
    (triggerDissolve env s).consecutivePinchFrames = s.consecutivePinchFrames := by
  unfold triggerDissolve
  split_ifs <;> rfl

theorem triggerDissolve_paths_cases (env : Env) (s : AppState) :
    (triggerDissolve env s).paths = s.paths ∨ (triggerDissolve env s).paths = [] := by
  unfold triggerDissolve
  split_ifs
  · exact Or.inl rfl
  · exact Or.inr rfl

theorem triggerDissolve_currentPath_cases (env : Env) (s : AppState) :
    (triggerDissolve env s).currentPath = s.currentPath ∨
    (triggerDissolve env s).currentPath = [] := by
  unfold triggerDissolve
  split_ifs
  · exact Or.inl rfl
  · exact Or.inr rfl

theorem addPointToStroke_smoothedPos (p : Pt) (s : AppState) :
    (addPointToStroke p s).smoothedPos = s.smoothedPos := by
  unfold addPointToStroke
  rcases s.currentPath.getLast? with _ | lastP
  · rfl
  · dsimp only
    split <;> rfl

theorem addPointToStroke_cursorPos (p : Pt) (s : AppState) :
    (addPointToStroke p s).cursorPos = s.cursorPos := by
  unfold addPointToStroke
  rcases s.currentPath.getLast? with _ | lastP
  · rfl
  · dsimp only
    split <;> rfl

theorem modeSpecific_smoothedPos (env : Env) (d : DetFrame) (s : AppState) :
    (modeSpecific env d s).smoothedPos = s.smoothedPos := by
  unfold modeSpecific
  dsimp only
  split_ifs <;>
    simp [handleUIInteraction_smoothedPos, endStroke_smoothedPos, addPointToStroke_smoothedPos,
          startStroke]

theorem modeSpecific_cursorPos (env : Env) (d : DetFrame) (s : AppState) :
    (modeSpecific env d s).cursorPos = s.cursorPos := by
  unfold modeSpecific
  dsimp only
  split_ifs <;>
    simp [handleUIInteraction_cursorPos, endStroke_cursorPos, addPointToStroke_cursorPos,
          startStroke]

theorem gesturePhase_smoothedPos (env : Env) (now : ℚ) (d : DetFrame) (s2 : AppState) :
    (gesturePhase env now d s2).smoothedPos = s2.smoothedPos := by
  unfold gesturePhase
  dsimp only
  split_ifs <;>
    simp [triggerDissolve_smoothedPos, modeSpecific_smoothedPos, palmStep_smoothedPos]

theorem gesturePhase_cursorPos (env : Env) (now : ℚ) (d : DetFrame) (s2 : AppState) :
    (gesturePhase env now d s2).cursorPos = s2.cursorPos := by
  unfold gesturePhase
  dsimp only
  split_ifs <;>
    simp [triggerDissolve_cursorPos, modeSpecific_cursorPos, palmStep_cursorPos]

theorem outOfZoneResult_mode (d : DetFrame) (s : AppState) :
    (outOfZoneResult d s).mode = IDLE := rfl

theorem outOfZoneResult_smoothedPos (d : DetFrame) (s : AppState) :
    (outOfZoneResult d s).smoothedPos = s.smoothedPos := by
  unfold outOfZoneResult
  dsimp only
  split <;> simp [endStroke_smoothedPos]

theorem outOfZoneResult_currentPath_drawing (d : DetFrame) (s : AppState)
    (hmode : s.mode = DRAWING) : (outOfZoneResult d s).currentPath = [] := by
  unfold outOfZoneResult
  dsimp only
  rw [if_pos hmode]
  exact endStroke_currentPath _

theorem outOfZoneResult_paths_drawing (d : DetFrame) (s : AppState)
    (hmode : s.mode = DRAWING) (hne : s.currentPath ≠ []) :
    (outOfZoneResult d s).paths = s.paths ++
      [{ points := s.currentPath, color := s.color, width := s.size,
         isEraser := decide (s.tool = ERASER) }] := by
  unfold outOfZoneResult
  dsimp only
  rw [if_pos hmode]
  exact endStroke_paths_of_ne _ hne

theorem smoothedState_smoothedPos_none (env : Env) (w h : ℚ) (d : DetFrame) (s : AppState)
    (hsm : s.smoothedPos = none) :
    (smoothedState env w h d s).smoothedPos =
      some ⟨(1 - (rawOf s.isMenuOpen d).x) * w, (rawOf s.isMenuOpen d).y * h⟩ := by
  unfold smoothedState smoothTarget
  rw [hsm]
  rfl

theorem smoothedState_cursorPos_none (env : Env) (w h : ℚ) (d : DetFrame) (s : AppState)
    (hsm : s.smoothedPos = none) :
    (smoothedState env w h d s).cursorPos =
      ⟨(1 - (rawOf s.isMenuOpen d).x) * w, (rawOf s.isMenuOpen d).y * h⟩ := by
  unfold smoothedState smoothTarget
  rw [hsm]
  rfl

/-- Claim C1 (amended): in DRAWING mode with the exit counter at its ceiling
3, a frame whose pinch ratio is 0.20 (above the end threshold 0.14)
decrements the counter to 2 and keeps the mode DRAWING, but the frame's
filtered point is NOT appended: the decrement branch skips the append, so
the active stroke is left exactly as it was. -/
theorem pinch_release_decrement (env : Env) (f : Frame) (d : DetFrame) (s : AppState)
    (hdet : f.det = some d) (hr : d.pinchVal = 1/5) (hmode : s.mode = DRAWING)
    (hmenu : s.isMenuOpen = false) (hcnt : s.consecutivePinchFrames = 3)
    (hzone : isInSafeZone (mirrored d.pinchMid) = true) :
    (update env f s).mode = DRAWING ∧
    (update env f s).consecutivePinchFrames = 2 ∧
    (update env f s).currentPath = s.currentPath := by
  rw [update_det_some env f d s hdet]
  have hmenu1 : (stepParticles env f.height s).isMenuOpen = false := by
    rw [stepParticles_isMenuOpen, hmenu]
  have hmode1 : (stepParticles env f.height s).mode = DRAWING := by
    rw [stepParticles_mode, hmode]
  have hzone1 :
      isInSafeZone (mirrored (rawOf (stepParticles env f.height s).isMenuOpen d)) = true := by
    rw [hmenu1]
    exact hzone
  rw [updateDet_eq_draw env f.now f.width f.height d _ hzone1 hmode1]
  have hmenu2 :
      (smoothedState env f.width f.height d (stepParticles env f.height s)).isMenuOpen = false := by
    rw [smoothedState_isMenuOpen]
    exact hmenu1
  have hmode2 :
      (smoothedState env f.width f.height d (stepParticles env f.height s)).mode = DRAWING := by
    rw [smoothedState_mode]
    exact hmode1
  have hcnt2 :
      (smoothedState env f.width f.height d
        (stepParticles env f.height s)).consecutivePinchFrames = 3 := by
    rw [smoothedState_consecutivePinchFrames, stepParticles_consecutivePinchFrames, hcnt]
  have hr2 : d.pinchVal > PINCH_END_THRESHOLD := by
    rw [hr, PINCH_END_THRESHOLD]
    norm_num
  have hc2 :
      ¬((smoothedState env f.width f.height d
          (stepParticles env f.height s)).consecutivePinchFrames - 1 < 0) := by
    rw [hcnt2]
    norm_num
  rw [modeSpecific_exit_keep env d _ hmenu2 hmode2 hr2 hc2]
  refine ⟨hmode2, ?_, ?_⟩
  · show (smoothedState env f.width f.height d
        (stepParticles env f.height s)).consecutivePinchFrames - 1 = 2
    rw [hcnt2]
    norm_num
  · show (smoothedState env f.width f.height d
        (stepParticles env f.height s)).currentPath = s.currentPath
    rw [smoothedState_currentPath, stepParticles_currentPath]

/-- The landmarks-present, out-of-zone frame: IDLE is forced, the filter
state is untouched, and a running stroke is finalized. -/
theorem update_out_of_zone (env : Env) (f : Frame) (s : AppState) (d : DetFrame)
    (hdet : f.det = some d)
    (hzone : isInSafeZone (mirrored (rawOf s.isMenuOpen d)) = false) :
    (update env f s).mode = IDLE ∧
    (update env f s).smoothedPos = s.smoothedPos ∧
    (s.mode = DRAWING →
      (update env f s).currentPath = [] ∧
      (s.currentPath ≠ [] →
        (update env f s).paths = s.paths ++
          [{ points := s.currentPath, color := s.color, width := s.size,
             isEraser := decide (s.tool = ERASER) }])) := by
  rw [update_det_some env f d s hdet]
  have hzone1 :
      isInSafeZone (mirrored (rawOf (stepParticles env f.height s).isMenuOpen d)) = false := by
    rw [stepParticles_isMenuOpen]
    exact hzone
  rw [updateDet_eq_out env f.now f.width f.height d _ hzone1]
  refine ⟨outOfZoneResult_mode d _, ?_, ?_⟩
  · rw [outOfZoneResult_smoothedPos, stepParticles_smoothedPos]
  · intro hmode
    have h1 : (stepParticles env f.height s).mode = DRAWING := by
      rw [stepParticles_mode, hmode]
    constructor
    · exact outOfZoneResult_currentPath_drawing d _ h1
    · intro hne
      exact outOfZoneResult_paths_drawing d _ h1 hne

/-- Claim C2 (amended): on a no-landmarks frame the update forces IDLE,
clears the position filter, and finalizes a running stroke; on an
out-of-zone frame it forces IDLE and finalizes a running stroke but leaves
the smoothed-position filter state unchanged (the code does not null it on
that branch). -/
theorem tracking_loss (env : Env) (f : Frame) (s : AppState) :
    (f.det = none →
      (update env f s).mode = IDLE ∧
      (update env f s).smoothedPos = none ∧
      (s.mode = DRAWING →
        (update env f s).currentPath = [] ∧
        (s.currentPath ≠ [] →
          (update env f s).paths = s.paths ++
            [{ points := s.currentPath, color := s.color, width := s.size,
               isEraser := decide (s.tool = ERASER) }]))) ∧
    (∀ d, f.det = some d →
      isInSafeZone (mirrored (rawOf s.isMenuOpen d)) = false →
      (update env f s).mode = IDLE ∧
      (update env f s).smoothedPos = s.smoothedPos ∧
      (s.mode = DRAWING →
        (update env f s).currentPath = [] ∧
        (s.currentPath ≠ [] →
          (update env f s).paths = s.paths ++
            [{ points := s.currentPath, color := s.color, width := s.size,
               isEraser := decide (s.tool = ERASER) }]))) := by
  constructor
  · intro hdet
    rw [update_det_none env f s hdet]
    refine ⟨rfl, rfl, ?_⟩
    intro hmode
    have h1 : (stepParticles env f.height s).mode = DRAWING := by
      rw [stepParticles_mode, hmode]
    rw [if_pos h1]
    constructor
    · show (endStroke (stepParticles env f.height s)).currentPath = []
      exact endStroke_currentPath _
    · intro hne
      show (endStroke (stepParticles env f.height s)).paths = _
      exact endStroke_paths_of_ne _ hne
  · intro d hdet hzone
    exact update_out_of_zone env f s d hdet hzone

/-- Claim C10: with landmarks present, the code mirrors only the horizontal
coordinate (rawX = 1 - x, rawY = y) of the chosen raw point before the
safe-zone test, the position filter and the cursor: the zone test passes
exactly when (1 - x, y) lies in the open box (0.05, 0.95) squared, an
out-of-zone mirrored point forces IDLE, and on a first in-zone sample the
filter and cursor are seeded with ((1 - x) * width, y * height). -/
theorem mirror_convention (env : Env) (f : Frame) (d : DetFrame) (s : AppState)
    (hdet : f.det = some d) :
    (isInSafeZone (mirrored (rawOf s.isMenuOpen d)) = true ↔
      (1/20 < 1 - (rawOf s.isMenuOpen d).x ∧ 1 - (rawOf s.isMenuOpen d).x < 19/20 ∧
       1/20 < (rawOf s.isMenuOpen d).y ∧ (rawOf s.isMenuOpen d).y < 19/20)) ∧
    (isInSafeZone (mirrored (rawOf s.isMenuOpen d)) = false →
      (update env f s).mode = IDLE ∧ (update env f s).smoothedPos = s.smoothedPos) ∧
    (isInSafeZone (mirrored (rawOf s.isMenuOpen d)) = true → s.smoothedPos = none →
      (update env f s).smoothedPos =
        some ⟨(1 - (rawOf s.isMenuOpen d).x) * f.width, (rawOf s.isMenuOpen d).y * f.height⟩ ∧
      (update env f s).cursorPos =
        ⟨(1 - (rawOf s.isMenuOpen d).x) * f.width, (rawOf s.isMenuOpen d).y * f.height⟩) := by
  refine ⟨?_, ?_, ?_⟩
  · unfold isInSafeZone mirrored
    simp [and_assoc]
  · intro hzone
    have h := update_out_of_zone env f s d hdet hzone
    exact ⟨h.1, h.2.1⟩
  · intro hzone hsm
    rw [update_det_some env f d s hdet]
    have hzone1 :
        isInSafeZone (mirrored (rawOf (stepParticles env f.height s).isMenuOpen d)) = true := by
      rw [stepParticles_isMenuOpen]
      exact hzone
    have hsm1 : (stepParticles env f.height s).smoothedPos = none := by
      rw [stepParticles_smoothedPos, hsm]
    have hsm2 := smoothedState_smoothedPos_none env f.width f.height d
      (stepParticles env f.height s) hsm1
    have hcp2 := smoothedState_cursorPos_none env f.width f.height d
      (stepParticles env f.height s) hsm1
    rw [stepParticles_isMenuOpen] at hsm2 hcp2
    by_cases hmode : (stepParticles env f.height s).mode = DRAWING
    · rw [updateDet_eq_draw env f.now f.width f.height d _ hzone1 hmode]
      rw [modeSpecific_smoothedPos, modeSpecific_cursorPos]
      exact ⟨hsm2, hcp2⟩
    · rw [updateDet_eq_gesture env f.now f.width f.height d _ hzone1 hmode]
      rw [gesturePhase_smoothedPos, gesturePhase_cursorPos]
      exact ⟨hsm2, hcp2⟩

/-! The iterated update and the drawing-hold trajectory. -/

theorem updates_nil (env : Env) (s : AppState) : updates env [] s = s := rfl

theorem updates_cons (env : Env) (f : Frame) (fs : List Frame) (s : AppState) :
    updates env (f :: fs) s = updates env fs (update env f s) := rfl

theorem updates_append (env : Env) (a b : List Frame) (s : AppState) :
    updates env (a ++ b) s = updates env b (updates env a s) := by
  simp [updates, List.foldl_append]

/-- One in-zone frame with ratio at most the end threshold, processed in
DRAWING mode with the menu closed: the mode stays DRAWING, the exit counter
is reset to the debounce ceiling, and the head of the stroke is kept. -/
theorem draw_hold_step (env : Env) (f : Frame) (d : DetFrame) (s : AppState)
    (hdet : f.det = some d) (hr : d.pinchVal ≤ PINCH_END_THRESHOLD)
    (hzone : isInSafeZone (mirrored d.pinchMid) = true)
    (hmode : s.mode = DRAWING) (hmenu : s.isMenuOpen = false) :
    (update env f s).mode = DRAWING ∧
    (update env f s).isMenuOpen = false ∧
    (update env f s).consecutivePinchFrames = PINCH_DEBOUNCE_FRAMES ∧
    (update env f s).currentPath.head? = s.currentPath.head? := by
  rw [update_det_some env f d s hdet]
  have hmenu1 : (stepParticles env f.height s).isMenuOpen = false := by
    rw [stepParticles_isMenuOpen, hmenu]
  have hmode1 : (stepParticles env f.height s).mode = DRAWING := by
    rw [stepParticles_mode, hmode]
  have hzone1 :
      isInSafeZone (mirrored (rawOf (stepParticles env f.height s).isMenuOpen d)) = true := by
    rw [hmenu1]
    exact hzone
  rw [updateDet_eq_draw env f.now f.width f.height d _ hzone1 hmode1]
  have hmenu2 :
      (smoothedState env f.width f.height d (stepParticles env f.height s)).isMenuOpen = false := by
    rw [smoothedState_isMenuOpen]
    exact hmenu1
  have hmode2 :
      (smoothedState env f.width f.height d (stepParticles env f.height s)).mode = DRAWING := by
    rw [smoothedState_mode]
    exact hmode1
  have hr2 : ¬(d.pinchVal > PINCH_END_THRESHOLD) := not_lt.mpr hr
  rw [modeSpecific_hold env d _ hmenu2 hmode2 hr2]
  refine ⟨?_, ?_, ?_, ?_⟩
  · rw [addPointToStroke_mode]
    exact hmode2
  · rw [addPointToStroke_isMenuOpen]
    exact hmenu2
  · rw [addPointToStroke_consecutivePinchFrames]
  · rw [addPointToStroke_currentPath_head]
    show (smoothedState env f.width f.height d
      (stepParticles env f.height s)).currentPath.head? = s.currentPath.head?
    rw [smoothedState_currentPath, stepParticles_currentPath]

theorem hysteresis_aux (env : Env) (fs : List Frame) :
    ∀ s0 : AppState, s0.mode = DRAWING → s0.isMenuOpen = false →
    (∀ f ∈ fs, drawFrame f) →
    (updates env fs s0).mode = DRAWING ∧
    (updates env fs s0).isMenuOpen = false ∧
    (updates env fs s0).currentPath.head? = s0.currentPath.head? ∧
    (fs ≠ [] → (updates env fs s0).consecutivePinchFrames = PINCH_DEBOUNCE_FRAMES) := by
  induction fs with
  | nil =>
    intro s0 hmode hmenu _
    exact ⟨hmode, hmenu, rfl, fun h => absurd rfl h⟩
  | cons f rest ih =>
    intro s0 hmode hmenu hfs
    rcases hfs f (List.mem_cons_self f rest) with ⟨d, hdet, hr, hzone⟩
    have hstep := draw_hold_step env f d s0 hdet hr hzone hmode hmenu
    rw [updates_cons]
    have hrec := ih (update env f s0) hstep.1 hstep.2.1
      (fun g hg => hfs g (List.mem_cons_of_mem f hg))
    refine ⟨hrec.1, hrec.2.1, ?_, ?_⟩
    · rw [hrec.2.2.1, hstep.2.2.2]
    · intro _
      cases rest with
      | nil => rw [updates_nil]; exact hstep.2.2.1
      | cons g tail => exact hrec.2.2.2 (List.cons_ne_nil g tail)

/-- Claim C4: while in DRAWING mode with the menu closed, any sequence of
in-zone frames whose pinch ratios all stay at or below the end threshold
0.14 never leaves DRAWING, and each such frame resets the exit-debounce
counter to its ceiling PINCH_DEBOUNCE_FRAMES. -/
theorem hysteresis_band (env : Env) (fs : List Frame) (s0 : AppState)
    (hmode : s0.mode = DRAWING) (hmenu : s0.isMenuOpen = false)
    (hfs : ∀ f ∈ fs, drawFrame f) :
    (∀ n, n ≤ fs.length → (updates env (fs.take n) s0).mode = DRAWING) ∧
    (∀ n, 1 ≤ n → n ≤ fs.length →
      (updates env (fs.take n) s0).consecutivePinchFrames = PINCH_DEBOUNCE_FRAMES) := by
  constructor
  · intro n _
    exact (hysteresis_aux env (fs.take n) s0 hmode hmenu
      (fun f hf => hfs f (List.take_subset n fs hf))).1
  · intro n hn hnl
    refine (hysteresis_aux env (fs.take n) s0 hmode hmenu
      (fun f hf => hfs f (List.take_subset n fs hf))).2.2.2 ?_
    intro hc
    have := congrArg List.length hc
    simp only [List.length_take, List.length_nil] at this
    omega

/-! The pinch-entry trajectory. -/

/-- With landmarks in zone, no gestures, menu closed and mode not DRAWING,
the frame reduces to the mode-specific logic on a state that agrees with the
input on the state-machine fields. -/
theorem entry_phase_eq (env : Env) (f : Frame) (d : DetFrame) (s : AppState)
    (hdet : f.det = some d) (hpalm : d.openPalm = false) (hvic : d.victory = false)
    (hmenu : s.isMenuOpen = false) (hmode : s.mode ≠ DRAWING)
    (hzone : isInSafeZone (mirrored d.pinchMid) = true) :
    ∃ X : AppState, update env f s = modeSpecific env d X ∧
      X.mode = s.mode ∧ X.isMenuOpen = false ∧ X.currentPath = s.currentPath ∧
      X.consecutivePinchFrames = s.consecutivePinchFrames := by
  rw [update_det_some env f d s hdet]
  have hmenu1 : (stepParticles env f.height s).isMenuOpen = false := by
    rw [stepParticles_isMenuOpen, hmenu]
  have hmode1 : ¬((stepParticles env f.height s).mode = DRAWING) := by
    rw [stepParticles_mode]
    exact hmode
  have hzone1 :
      isInSafeZone (mirrored (rawOf (stepParticles env f.height s).isMenuOpen d)) = true := by
    rw [hmenu1]
    exact hzone
  rw [updateDet_eq_gesture env f.now f.width f.height d _ hzone1 hmode1]
  have hmenu2 :
      (smoothedState env f.width f.height d (stepParticles env f.height s)).isMenuOpen = false := by
    rw [smoothedState_isMenuOpen]
    exact hmenu1
  rcases gesturePhase_quiet env f.now d
      (smoothedState env f.width f.height d (stepParticles env f.height s)) hpalm hvic with
    h | h
  · refine ⟨_, h, ?_, hmenu2, ?_, ?_⟩
    · rw [smoothedState_mode, stepParticles_mode]
    · rw [smoothedState_currentPath, stepParticles_currentPath]
    · rw [smoothedState_consecutivePinchFrames, stepParticles_consecutivePinchFrames]
  · refine ⟨_, h, ?_, ?_, ?_, ?_⟩
    · show (smoothedState env f.width f.height d (stepParticles env f.height s)).mode = s.mode
      rw [smoothedState_mode, stepParticles_mode]
    · exact hmenu2
    · show (smoothedState env f.width f.height d
        (stepParticles env f.height s)).currentPath = s.currentPath
      rw [smoothedState_currentPath, stepParticles_currentPath]
    · show (smoothedState env f.width f.height d
        (stepParticles env f.height s)).consecutivePinchFrames = s.consecutivePinchFrames
      rw [smoothedState_consecutivePinchFrames, stepParticles_consecutivePinchFrames]

theorem entry_count_step (env : Env) (f : Frame) (d : DetFrame) (s : AppState)
    (hdet : f.det = some d) (hpalm : d.openPalm = false) (hvic : d.victory = false)
    (hzone : isInSafeZone (mirrored d.pinchMid) = true)
    (hmenu : s.isMenuOpen = false) (hmode : s.mode ≠ DRAWING)
    (hr : d.pinchVal < PINCH_START_THRESHOLD)
    (hc : ¬(s.consecutivePinchFrames + 1 > PINCH_DEBOUNCE_FRAMES)) :
    (update env f s).mode = s.mode ∧ (update env f s).isMenuOpen = false ∧
    (update env f s).currentPath = s.currentPath ∧
    (update env f s).consecutivePinchFrames = s.consecutivePinchFrames + 1 := by
  rcases entry_phase_eq env f d s hdet hpalm hvic hmenu hmode hzone with
    ⟨X, hX, hXmode, hXmenu, hXpath, hXcpf⟩
  rw [hX, modeSpecific_entry_count env d X hXmenu (by rw [hXmode]; exact hmode) hr
    (by rw [hXcpf]; exact hc)]
  exact ⟨hXmode, hXmenu, hXpath, by rw [hXcpf]⟩

theorem entry_fire_step (env : Env) (f : Frame) (d : DetFrame) (s : AppState)
    (hdet : f.det = some d) (hpalm : d.openPalm = false) (hvic : d.victory = false)
    (hzone : isInSafeZone (mirrored d.pinchMid) = true)
    (hmenu : s.isMenuOpen = false) (hmode : s.mode ≠ DRAWING)
    (hr : d.pinchVal < PINCH_START_THRESHOLD)
    (hc : s.consecutivePinchFrames + 1 > PINCH_DEBOUNCE_FRAMES) :
    (update env f s).mode = DRAWING ∧ (update env f s).isMenuOpen = false ∧
    (update env f s).currentPath = [(update env f s).cursorPos] ∧
    (update env f s).consecutivePinchFrames = s.consecutivePinchFrames + 1 := by
  rcases entry_phase_eq env f d s hdet hpalm hvic hmenu hmode hzone with
    ⟨X, hX, hXmode, hXmenu, hXpath, hXcpf⟩
  rw [hX, modeSpecific_entry_fire env d X hXmenu (by rw [hXmode]; exact hmode) hr
    (by rw [hXcpf]; exact hc)]
  exact ⟨rfl, hXmenu, rfl, by rw [hXcpf]⟩

theorem entry_reset_step (env : Env) (f : Frame) (d : DetFrame) (s : AppState)
    (hdet : f.det = some d) (hpalm : d.openPalm = false) (hvic : d.victory = false)
    (hzone : isInSafeZone (mirrored d.pinchMid) = true)
    (hmenu : s.isMenuOpen = false) (hmode : s.mode ≠ DRAWING)
    (hr : PINCH_START_THRESHOLD ≤ d.pinchVal) :
    (update env f s).consecutivePinchFrames = 0 ∧ (update env f s).mode = HOVER := by
  rcases entry_phase_eq env f d s hdet hpalm hvic hmenu hmode hzone with
    ⟨X, hX, hXmode, hXmenu, _, _⟩
  rw [hX, modeSpecific_reset env d X hXmenu (by rw [hXmode]; exact hmode) (not_lt.mpr hr)]
  exact ⟨rfl, rfl⟩

theorem entry_aux (env : Env) (r : ℚ) (hr : r < PINCH_START_THRESHOLD) (fs : List Frame) :
    ∀ s0 : AppState, (∀ f ∈ fs, entryFrame r f) →
      s0.isMenuOpen = false → s0.mode ≠ DRAWING → s0.currentPath = [] →
      s0.consecutivePinchFrames + fs.length ≤ PINCH_DEBOUNCE_FRAMES →
      (updates env fs s0).mode = s0.mode ∧ (updates env fs s0).isMenuOpen = false ∧
      (updates env fs s0).currentPath = [] ∧
      (updates env fs s0).consecutivePinchFrames = s0.consecutivePinchFrames + fs.length := by
  induction fs with
  | nil =>
    intro s0 _ hmenu hmode hpath _
    exact ⟨rfl, hmenu, hpath, by rw [updates_nil]; simp⟩
  | cons f rest ih =>
    intro s0 hfs hmenu hmode hpath hbound
    rcases hfs f (List.mem_cons_self f rest) with ⟨d, hdet, hrv, hpalm, hvic, hzone⟩
    have hrd : d.pinchVal < PINCH_START_THRESHOLD := by rw [hrv]; exact hr
    have hc : ¬(s0.consecutivePinchFrames + 1 > PINCH_DEBOUNCE_FRAMES) := by
      simp only [List.length_cons] at hbound
      push_cast at hbound ⊢
      omega
    have hstep := entry_count_step env f d s0 hdet hpalm hvic hzone hmenu hmode hrd hc
    rw [updates_cons]
    have hrec := ih (update env f s0)
      (fun g hg => hfs g (List.mem_cons_of_mem f hg))
      hstep.2.1 (by rw [hstep.1]; exact hmode) (by rw [hstep.2.2.1]; exact hpath)
      (by
        rw [hstep.2.2.2]
        simp only [List.length_cons] at hbound
        push_cast at hbound ⊢
        omega)
    refine ⟨?_, hrec.2.1, hrec.2.2.1, ?_⟩
    · rw [hrec.1, hstep.1]
    · rw [hrec.2.2.2, hstep.2.2.2]
      simp only [List.length_cons]
      push_cast
      ring

theorem entryFrame_drawFrame (r : ℚ) (f : Frame) (hr : r < PINCH_START_THRESHOLD)
    (hf : entryFrame r f) : drawFrame f := by
  rcases hf with ⟨d, hdet, hrv, _, _, hzone⟩
  refine ⟨d, hdet, ?_, hzone⟩
  rw [hrv]
  have hle : PINCH_START_THRESHOLD ≤ PINCH_END_THRESHOLD := by
    norm_num [PINCH_START_THRESHOLD, PINCH_END_THRESHOLD]
  exact le_of_lt (lt_of_lt_of_le hr hle)

/-- Claim C3: for any ratio r below the start threshold 0.09, feeding
qualifying in-zone frames with ratio r from IDLE or HOVER with a zero pinch
counter makes the mode DRAWING exactly on the 4th frame (when the counter
first exceeds the debounce count 3); the stroke is opened exactly once, as
the one-point path at the 4th frame's filtered position, whose first point
persists afterwards; and any single frame at or above the threshold, before
confirmation, resets the counter to 0. -/
theorem pinch_entry_debounce (env : Env) (r : ℚ) (fs : List Frame) (s0 : AppState)
    (hr : r < PINCH_START_THRESHOLD) (hfs : ∀ f ∈ fs, entryFrame r f)
    (hmode : s0.mode = IDLE ∨ s0.mode = HOVER) (hmenu : s0.isMenuOpen = false)
    (hcnt : s0.consecutivePinchFrames = 0) (hpath : s0.currentPath = []) :
    (∀ n, n ≤ fs.length → ((updates env (fs.take n) s0).mode = DRAWING ↔ 4 ≤ n)) ∧
    (∀ n, n ≤ 3 → (updates env (fs.take n) s0).currentPath = []) ∧
    (4 ≤ fs.length →
      (updates env (fs.take 4) s0).currentPath = [(updates env (fs.take 4) s0).cursorPos] ∧
      (∀ n, 4 ≤ n → n ≤ fs.length →
        (updates env (fs.take n) s0).mode = DRAWING ∧
        (updates env (fs.take n) s0).currentPath.head? =
          some (updates env (fs.take 4) s0).cursorPos)) ∧
    (∀ (f : Frame) (d : DetFrame) (s : AppState), f.det = some d →
      PINCH_START_THRESHOLD ≤ d.pinchVal → d.openPalm = false → d.victory = false →
      isInSafeZone (mirrored d.pinchMid) = true → s.isMenuOpen = false → s.mode ≠ DRAWING →
      (update env f s).consecutivePinchFrames = 0) := by
  have hmodeNe : s0.mode ≠ DRAWING := by
    rcases hmode with h | h <;> rw [h] <;> simp
  have haux : ∀ n, n ≤ 3 →
      (updates env (fs.take n) s0).mode = s0.mode ∧
      (updates env (fs.take n) s0).isMenuOpen = false ∧
      (updates env (fs.take n) s0).currentPath = [] ∧
      (updates env (fs.take n) s0).consecutivePinchFrames = (fs.take n).length := by
    intro n hn
    have h := entry_aux env r hr (fs.take n) s0
      (fun f hf => hfs f (List.take_subset n fs hf)) hmenu hmodeNe hpath
      (by
        rw [hcnt]
        have : (fs.take n).length ≤ n := by
          simp [List.length_take]
        simp only [PINCH_DEBOUNCE_FRAMES]
        omega)
    rw [hcnt] at h
    simpa using h
  -- the state after four frames, when at least four frames exist
  have hfour : 4 ≤ fs.length →
      (updates env (fs.take 4) s0).mode = DRAWING ∧
      (updates env (fs.take 4) s0).isMenuOpen = false ∧
      (updates env (fs.take 4) s0).currentPath =
        [(updates env (fs.take 4) s0).cursorPos] := by
    intro hlen
    have h3 := haux 3 (by omega)
    have hlt : 3 < fs.length := by omega
    have htake : fs.take 4 = fs.take 3 ++ [fs[3]] := by
      rw [List.take_succ]
      congr
      rw [List.getElem?_eq_getElem hlt]
      rfl
    have hmem : fs[3] ∈ fs := List.getElem_mem hlt
    rcases hfs _ hmem with ⟨d, hdet, hrv, hpalm, hvic, hzone⟩
    have hrd : d.pinchVal < PINCH_START_THRESHOLD := by rw [hrv]; exact hr
    have hlen3 : (fs.take 3).length = 3 := by
      simp [List.length_take]
      omega
    have hc : (updates env (fs.take 3) s0).consecutivePinchFrames + 1 >
        PINCH_DEBOUNCE_FRAMES := by
      rw [h3.2.2.2, hlen3]
      simp [PINCH_DEBOUNCE_FRAMES]
    have hstep := entry_fire_step env fs[3] d (updates env (fs.take 3) s0) hdet hpalm hvic
      hzone h3.2.1 (by rw [h3.1]; exact hmodeNe) hrd hc
    rw [htake, updates_append]
    exact ⟨hstep.1, hstep.2.1, hstep.2.2.1⟩
  refine ⟨?_, fun n hn => (haux n hn).2.2.1, ?_, ?_⟩
  · intro n hn
    by_cases h4 : 4 ≤ n
    · have hlen : 4 ≤ fs.length := le_trans h4 hn
      have hf4 := hfour hlen
      have htake : fs.take n = fs.take 4 ++ (fs.drop 4).take (n - 4) := by
        rw [← List.take_add]
        congr 1
        omega
      have hrest : ∀ f ∈ (fs.drop 4).take (n - 4), drawFrame f := by
        intro f hf
        exact entryFrame_drawFrame r f hr
          (hfs f (List.drop_subset 4 fs (List.take_subset _ _ hf)))
      have hold := hysteresis_aux env ((fs.drop 4).take (n - 4))
        (updates env (fs.take 4) s0) hf4.1 hf4.2.1 hrest
      rw [htake, updates_append]
      exact iff_of_true hold.1 h4
    · have hn3 : n ≤ 3 := by omega
      have h := haux n hn3
      rw [h.1]
      constructor
      · intro hc
        exact absurd hc hmodeNe
      · intro hc
        omega
  · intro hlen
    have hf4 := hfour hlen
    refine ⟨hf4.2.2, ?_⟩
    intro n h4 hn
    have htake : fs.take n = fs.take 4 ++ (fs.drop 4).take (n - 4) := by
      rw [← List.take_add]
      congr 1
      omega
    have hrest : ∀ f ∈ (fs.drop 4).take (n - 4), drawFrame f := by
      intro f hf
      exact entryFrame_drawFrame r f hr
        (hfs f (List.drop_subset 4 fs (List.take_subset _ _ hf)))
    have hold := hysteresis_aux env ((fs.drop 4).take (n - 4))
      (updates env (fs.take 4) s0) hf4.1 hf4.2.1 hrest
    rw [htake, updates_append]
    refine ⟨hold.1, ?_⟩
    rw [hold.2.2.1, hf4.2.2]
    rfl
  · intro f d s hdet hge hpalm hvic hzone hsmenu hsmode
    exact (entry_reset_step env f d s hdet hpalm hvic hzone hsmenu hsmode hge).1

/-! The dwell-selection trajectory. -/

theorem uiIter_succ_right (env : Env) (n : ℕ) (s : AppState) :
    uiIter env (n + 1) s = handleUIInteraction env (uiIter env n s) := by
  induction n generalizing s with
  | zero => rfl
  | succ n ih =>
    show uiIter env (n + 1) (handleUIInteraction env s) = _
    rw [ih]
    rfl

/-- A frame whose hit differs from the hovered id resets the dwell. -/
theorem dwell_first (env : Env) (s : AppState) (e : String)
    (hhit : findHit env s.cursorPos.x s.cursorPos.y menuIds = some e)
    (hdiff : s.hoveredId ≠ some e) :
    handleUIInteraction env s = { s with hoveredId := some e, selectionProgress := 0 } := by
  unfold handleUIInteraction
  rw [hhit]
  dsimp only
  rw [if_pos hdiff]

/-- A frame with no hit clears the hovered id and the dwell progress. -/
theorem dwell_none (env : Env) (s : AppState)
    (hhit : findHit env s.cursorPos.x s.cursorPos.y menuIds = none) :
    handleUIInteraction env s = { s with hoveredId := none, selectionProgress := 0 } := by
  unfold handleUIInteraction
  rw [hhit]

/-- A sub-threshold accumulation frame adds one frame interval. -/
theorem dwell_step (env : Env) (t : AppState) (e : String)
    (hhit : findHit env t.cursorPos.x t.cursorPos.y menuIds = some e)
    (hhover : t.hoveredId = some e)
    (hlt : t.selectionProgress + FRAME_INTERVAL < DWELL_TIME_MS) :
    handleUIInteraction env t =
      { t with selectionProgress := t.selectionProgress + FRAME_INTERVAL } := by
  unfold handleUIInteraction
  rw [hhit]
  dsimp only
  rw [if_neg (by rw [hhover]; simp), if_neg (not_le.mpr hlt)]

/-- The firing frame: once the accumulated progress reaches the dwell
threshold, the selection event for the hit id is emitted and both the
progress and the hovered id are reset. -/
theorem dwell_fire (env : Env) (t : AppState) (e : String)
    (hhit : findHit env t.cursorPos.x t.cursorPos.y menuIds = some e)
    (hhover : t.hoveredId = some e)
    (hge : t.selectionProgress + FRAME_INTERVAL ≥ DWELL_TIME_MS) :
    (handleUIInteraction env t).clicks = t.clicks ++ [e] ∧
    (handleUIInteraction env t).hoveredId = none ∧
    (handleUIInteraction env t).selectionProgress = 0 := by
  unfold handleUIInteraction
  rw [hhit]
  dsimp only
  rw [if_neg (by rw [hhover]; simp), if_pos hge]
  refine ⟨?_, rfl, rfl⟩
  show (triggerClick e _).clicks = t.clicks ++ [e]
  rw [triggerClick_clicks]

theorem dwell_accum (env : Env) (e : String) :
    ∀ (j : ℕ) (t : AppState),
      findHit env t.cursorPos.x t.cursorPos.y menuIds = some e →
      t.hoveredId = some e →
      t.selectionProgress + (j : ℚ) * FRAME_INTERVAL < DWELL_TIME_MS →
      (uiIter env j t).hoveredId = some e ∧
      (uiIter env j t).selectionProgress =
        t.selectionProgress + (j : ℚ) * FRAME_INTERVAL ∧
      (uiIter env j t).clicks = t.clicks ∧
      (uiIter env j t).cursorPos = t.cursorPos := by
  intro j
  induction j with
  | zero =>
    intro t _ hhover _
    refine ⟨hhover, ?_, rfl, rfl⟩
    show t.selectionProgress = _
    push_cast
    ring
  | succ j ih =>
    intro t hhit hhover hbound
    have hj : (0 : ℚ) ≤ (j : ℚ) := Nat.cast_nonneg j
    have hlt : t.selectionProgress + FRAME_INTERVAL < DWELL_TIME_MS := by
      push_cast at hbound
      norm_num [FRAME_INTERVAL, DWELL_TIME_MS] at hbound ⊢
      linarith
    have hstep := dwell_step env t e hhit hhover hlt
    have heq : uiIter env (j + 1) t =
        uiIter env j { t with selectionProgress := t.selectionProgress + FRAME_INTERVAL } := by
      show uiIter env j (handleUIInteraction env t) = _
      rw [hstep]
    have hrec := ih { t with selectionProgress := t.selectionProgress + FRAME_INTERVAL }
      hhit hhover
      (by
        show t.selectionProgress + FRAME_INTERVAL + (j : ℚ) * FRAME_INTERVAL < DWELL_TIME_MS
        push_cast at hbound
        norm_num [FRAME_INTERVAL, DWELL_TIME_MS] at hbound ⊢
        linarith)
    rw [heq]
    refine ⟨hrec.1, ?_, hrec.2.2.1, hrec.2.2.2⟩
    rw [hrec.2.1]
    show t.selectionProgress + FRAME_INTERVAL + (j : ℚ) * FRAME_INTERVAL = _
    push_cast
    ring

/-- Claim C5: with the cursor held inside one fixed element rectangle whose
hit id is e, starting with no hovered id and zero progress, no selection
fires during the first 18 frames, and exactly one selection event for e
fires on the 19th frame, when the accumulated dwell time first reaches the
600 ms threshold (18 accumulation frames of 1000/30 ms each); afterwards the
progress and hovered id are reset.  A frame whose hit differs from the
hovered id resets the progress to 0 before re-accumulating, and a frame with
no hit clears both the hovered id and the progress. -/
theorem dwell_selection (env : Env) (s : AppState) (e : String)
    (hhit : findHit env s.cursorPos.x s.cursorPos.y menuIds = some e)
    (hstart : s.hoveredId = none) (_hprog : s.selectionProgress = 0) :
    (∀ n, n ≤ 18 → (uiIter env n s).clicks = s.clicks) ∧
    ((uiIter env 19 s).clicks = s.clicks ++ [e] ∧
     (uiIter env 19 s).hoveredId = none ∧
     (uiIter env 19 s).selectionProgress = 0) ∧
    (∀ (t : AppState) (e2 : String),
      findHit env t.cursorPos.x t.cursorPos.y menuIds = some e2 →
      t.hoveredId ≠ some e2 →
      handleUIInteraction env t = { t with hoveredId := some e2, selectionProgress := 0 }) ∧
    (∀ t : AppState, findHit env t.cursorPos.x t.cursorPos.y menuIds = none →
      handleUIInteraction env t = { t with hoveredId := none, selectionProgress := 0 }) := by
  have hne : s.hoveredId ≠ some e := by rw [hstart]; simp
  have hfirst := dwell_first env s e hhit hne
  have haccum : ∀ j : ℕ, j ≤ 17 →
      (uiIter env (j + 1) s).hoveredId = some e ∧
      (uiIter env (j + 1) s).selectionProgress = (j : ℚ) * FRAME_INTERVAL ∧
      (uiIter env (j + 1) s).clicks = s.clicks ∧
      (uiIter env (j + 1) s).cursorPos = s.cursorPos := by
    intro j hj
    have heq : uiIter env (j + 1) s =
        uiIter env j { s with hoveredId := some e, selectionProgress := 0 } := by
      show uiIter env j (handleUIInteraction env s) = _
      rw [hfirst]
    have hj17 : (j : ℚ) ≤ 17 := by exact_mod_cast hj
    have hrec := dwell_accum env e j { s with hoveredId := some e, selectionProgress := 0 }
      hhit rfl
      (by
        show (0 : ℚ) + (j : ℚ) * FRAME_INTERVAL < DWELL_TIME_MS
        norm_num [FRAME_INTERVAL, DWELL_TIME_MS]
        linarith)
    rw [heq]
    refine ⟨hrec.1, ?_, hrec.2.2.1, hrec.2.2.2⟩
    rw [hrec.2.1]
    show (0 : ℚ) + (j : ℚ) * FRAME_INTERVAL = _
    ring
  refine ⟨?_, ?_, fun t e2 ht hd => dwell_first env t e2 ht hd,
    fun t ht => dwell_none env t ht⟩
  · intro n hn
    cases n with
    | zero => rfl
    | succ m => exact (haccum m (by omega)).2.2.1
  · have h18 := haccum 17 (le_refl 17)
    have hhit18 : findHit env (uiIter env 18 s).cursorPos.x
        (uiIter env 18 s).cursorPos.y menuIds = some e := by
      rw [h18.2.2.2]
      exact hhit
    have hge : (uiIter env 18 s).selectionProgress + FRAME_INTERVAL ≥ DWELL_TIME_MS := by
      rw [h18.2.1]
      norm_num [FRAME_INTERVAL, DWELL_TIME_MS]
    have hfire := dwell_fire env (uiIter env 18 s) e hhit18 h18.1 hge
    rw [uiIter_succ_right env 18 s]
    exact ⟨by rw [hfire.1, h18.2.2.1], hfire.2.1, hfire.2.2⟩

/-! Reachability invariants. -/

theorem modeSpecific_inv (env : Env) (d : DetFrame) (s : AppState)
    (h : s.mode = DRAWING → s.currentPath ≠ []) :
    (modeSpecific env d s).mode = DRAWING → (modeSpecific env d s).currentPath ≠ [] := by
  unfold modeSpecific
  dsimp only
  split_ifs with h1 h2 h3 h4 h5 h6 h7 <;> intro hm <;>
    first
      | exact hm.elim
      | exact h h3
      | exact addPointToStroke_ne_nil _ _ (h h3)
      | exact List.cons_ne_nil _ _
      | (rw [handleUIInteraction_mode] at hm
         exact absurd hm (by simp))
      | exact absurd (show s.mode = DRAWING from hm) h3

theorem modeSpecific_paths_cases (env : Env) (d : DetFrame) (s : AppState) :
    (modeSpecific env d s).paths = s.paths ∨
    ∃ p, (modeSpecific env d s).paths = s.paths ++ [p] := by
  unfold modeSpecific
  dsimp only
  split_ifs <;>
    first
      | exact Or.inl (handleUIInteraction_paths _ _)
      | exact Or.inl (addPointToStroke_paths _ _)
      | exact endStroke_paths_from _ _ rfl
      | exact Or.inl rfl

theorem modeSpecific_paths_of_ne (env : Env) (d : DetFrame) (s : AppState)
    (hmode : s.mode ≠ DRAWING) :
    (modeSpecific env d s).paths = s.paths := by
  unfold modeSpecific
  dsimp only
  split_ifs with h1 h2 h3 h4 <;>
    first
      | exact handleUIInteraction_paths _ _
      | exact addPointToStroke_paths _ _
      | exact absurd h3 hmode
      | rfl

theorem gesturePhase_inv (env : Env) (now : ℚ) (d : DetFrame) (s2 : AppState)
    (hmode : s2.mode ≠ DRAWING) :
    (gesturePhase env now d s2).mode = DRAWING →
    (gesturePhase env now d s2).currentPath ≠ [] := by
  unfold gesturePhase
  dsimp only
  have hpalm : ∀ b : Bool, (palmStep now b s2).mode ≠ DRAWING := by
    intro b
    rcases palmStep_mode_cases now b s2 with hcase | hcase
    · rw [hcase]; exact hmode
    · exact hcase
  split_ifs with hcool hvic hvic2 <;> intro hm
  · rw [triggerDissolve_mode] at hm
    exact absurd hm (hpalm d.openPalm)
  · exact modeSpecific_inv env d _ (fun hd => absurd hd (hpalm d.openPalm)) hm
  · rw [triggerDissolve_mode] at hm
    exact absurd hm hmode
  · exact modeSpecific_inv env d _ (fun hd => absurd hd hmode) hm

theorem gesturePhase_paths (env : Env) (now : ℚ) (d : DetFrame) (s2 : AppState)
    (hmode : s2.mode ≠ DRAWING) :
    (gesturePhase env now d s2).paths = s2.paths ∨
    (∃ p, (gesturePhase env now d s2).paths = s2.paths ++ [p]) ∨
    (gesturePhase env now d s2).paths = [] := by
  unfold gesturePhase
  dsimp only
  have hpalmmode : ∀ b : Bool, (palmStep now b s2).mode ≠ DRAWING := by
    intro b
    rcases palmStep_mode_cases now b s2 with hcase | hcase
    · rw [hcase]; exact hmode
    · exact hcase
  split_ifs with hcool hvic hvic2
  · rcases triggerDissolve_paths_cases env (palmStep now d.openPalm s2) with hd | hd
    · rw [hd]
      rcases palmStep_paths_cases now d.openPalm s2 with hp | ⟨p, hp⟩
      · exact Or.inl hp
      · exact Or.inr (Or.inl ⟨p, hp⟩)
    · exact Or.inr (Or.inr hd)
  · rw [modeSpecific_paths_of_ne env d _ (hpalmmode d.openPalm)]
    rcases palmStep_paths_cases now d.openPalm s2 with hp | ⟨p, hp⟩
    · exact Or.inl hp
    · exact Or.inr (Or.inl ⟨p, hp⟩)
  · rcases triggerDissolve_paths_cases env s2 with hd | hd
    · exact Or.inl hd
    · exact Or.inr (Or.inr hd)
  · rw [modeSpecific_paths_of_ne env d s2 hmode]
    exact Or.inl rfl

theorem outOfZoneResult_paths_cases (d : DetFrame) (s : AppState) :
    (outOfZoneResult d s).paths = s.paths ∨
    ∃ p, (outOfZoneResult d s).paths = s.paths ++ [p] := by
  unfold outOfZoneResult
  dsimp only
  split_ifs <;>
    first
      | exact endStroke_paths_from _ _ rfl
      | exact Or.inl rfl

/-- One update step keeps the core consistency: when the frame leaves the
machine in DRAWING mode, the active stroke is non-empty. -/
theorem update_drawing_inv (env : Env) (f : Frame) (s : AppState)
    (h : s.mode = DRAWING → s.currentPath ≠ []) :
    (update env f s).mode = DRAWING → (update env f s).currentPath ≠ [] := by
  have hinv : (stepParticles env f.height s).mode = DRAWING →
      (stepParticles env f.height s).currentPath ≠ [] := by
    intro hm
    rw [stepParticles_currentPath]
    exact h (by rw [← stepParticles_mode env f.height s]; exact hm)
  rcases hdet : f.det with _ | d
  · rw [update_det_none env f s hdet]
    intro hm
    exact absurd hm (by simp)
  · rw [update_det_some env f d s hdet]
    cases hzone : isInSafeZone (mirrored (rawOf (stepParticles env f.height s).isMenuOpen d)) with
    | false =>
      rw [updateDet_eq_out env f.now f.width f.height d _ hzone]
      intro hm
      rw [outOfZoneResult_mode] at hm
      exact absurd hm (by simp)
    | true =>
      by_cases hmode : (stepParticles env f.height s).mode = DRAWING
      · rw [updateDet_eq_draw env f.now f.width f.height d _ hzone hmode]
        apply modeSpecific_inv
        intro hm2
        rw [smoothedState_currentPath]
        exact hinv (by
          rw [← smoothedState_mode env f.width f.height d (stepParticles env f.height s)]
          exact hm2)
      · rw [updateDet_eq_gesture env f.now f.width f.height d _ hzone hmode]
        apply gesturePhase_inv
        rw [smoothedState_mode]
        exact hmode

/-- One update step can only leave the path collection alone, append exactly
one finalized path, or clear it in bulk. -/
theorem update_pathsEvolve (env : Env) (f : Frame) (s : AppState) :
    PathsEvolve s (update env f s) := by
  unfold PathsEvolve
  rcases hdet : f.det with _ | d
  · rw [update_det_none env f s hdet]
    show (if (stepParticles env f.height s).mode = DRAWING
        then endStroke (stepParticles env f.height s)
        else stepParticles env f.height s).paths = s.paths ∨ _
    split_ifs
    · rcases endStroke_paths_from (stepParticles env f.height s) s.paths rfl with hp | ⟨p, hp⟩
      · exact Or.inl hp
      · exact Or.inr (Or.inl ⟨p, hp⟩)
    · exact Or.inl rfl
  · rw [update_det_some env f d s hdet]
    cases hzone : isInSafeZone (mirrored (rawOf (stepParticles env f.height s).isMenuOpen d)) with
    | false =>
      rw [updateDet_eq_out env f.now f.width f.height d _ hzone]
      rcases outOfZoneResult_paths_cases d (stepParticles env f.height s) with hp | ⟨p, hp⟩
      · exact Or.inl hp
      · exact Or.inr (Or.inl ⟨p, hp⟩)
    | true =>
      by_cases hmode : (stepParticles env f.height s).mode = DRAWING
      · rw [updateDet_eq_draw env f.now f.width f.height d _ hzone hmode]
        rcases modeSpecific_paths_cases env d
          (smoothedState env f.width f.height d (stepParticles env f.height s)) with hp | ⟨p, hp⟩
        · exact Or.inl (by rw [hp, smoothedState_paths, stepParticles_paths])
        · exact Or.inr (Or.inl ⟨p, by rw [hp, smoothedState_paths, stepParticles_paths]⟩)
      · rw [updateDet_eq_gesture env f.now f.width f.height d _ hzone hmode]
        rcases gesturePhase_paths env f.now d
          (smoothedState env f.width f.height d (stepParticles env f.height s))
          (by rw [smoothedState_mode]; exact hmode) with hp | ⟨p, hp⟩ | hp
        · exact Or.inl (by rw [hp, smoothedState_paths, stepParticles_paths])
        · exact Or.inr (Or.inl ⟨p, by rw [hp, smoothedState_paths, stepParticles_paths]⟩)
        · exact Or.inr (Or.inr hp)

/-- Claim C7: in every state reachable from the initial state by per-frame
updates, DRAWING mode implies a non-empty active stroke (the model keeps the
single in-progress stroke in the one currentPath field, so at most one
active stroke exists by representation), and across any further update the
path collection is only left alone, extended by one newly finalized path, or
cleared in bulk — a finalized path is never mutated. -/
theorem state_invariants (env : Env) (s : AppState) (f : Frame)
    (hreach : Reachable env s) :
    (s.mode = DRAWING → s.currentPath ≠ []) ∧ PathsEvolve s (update env f s) := by
  refine ⟨?_, update_pathsEvolve env f s⟩
  induction hreach with
  | init =>
    intro hm
    exact absurd hm (by simp [initState])
  | step g hr ih => exact update_drawing_inv env g _ ih

/-- Claim C7 witness: the invariant holds at the initial state, and a pinch
frame from there evolves the (empty) path collection admissibly. -/
theorem state_invariants_witness :
    (initState.mode = DRAWING → initState.currentPath ≠ []) ∧
    PathsEvolve initState (update env0 framePinch initState) :=
  state_invariants env0 initState framePinch Reachable.init

/-! Concrete runs: counterexamples to the claims the code refutes, and
closed instantiations of the general theorems.  The local attribute restores
kernel reducibility of the rational-arithmetic primitives so that `decide`
can evaluate whole frames. -/

section ConcreteRuns

attribute [local semireducible] Rat.add Rat.mul Rat.sub Rat.inv Rat.ofScientific

/-- Claim C1 counterexample: from DRAWING with the exit counter at 3, the
ratio-0.20 frame decrements the counter to 2 and keeps DRAWING, but the
stroke is left at its single point (100, 100): the frame's filtered point is
NOT appended, refuting the claim that it still is. -/
theorem pinch_release_append_refuted :
    (update env0 frameRelease drawState).mode = DRAWING ∧
    (update env0 frameRelease drawState).consecutivePinchFrames = 2 ∧
    (update env0 frameRelease drawState).currentPath = [⟨100, 100⟩] ∧
    (update env0 frameRelease drawState).currentPath.length = 1 := by
  decide

/-- Claim C1 witness: the amended statement at the same concrete run. -/
theorem pinch_release_decrement_witness :
    (update env0 frameRelease drawState).mode = DRAWING ∧
    (update env0 frameRelease drawState).consecutivePinchFrames = 2 ∧
    (update env0 frameRelease drawState).currentPath = drawState.currentPath :=
  pinch_release_decrement env0 frameRelease { detPinch with pinchVal := 1/5 } drawState
    rfl rfl rfl rfl rfl (by decide)

/-- Claim C2 counterexample: a hovering state with filter value (7, 7) fed
an out-of-zone frame goes IDLE but keeps smoothedPos = some (7, 7): the
filter state is not cleared on the out-of-zone branch, refuting the claim
that both cases null it. -/
theorem out_of_zone_keeps_filter :
    (update env0 frameEdge hoverState).mode = IDLE ∧
    (update env0 frameEdge hoverState).smoothedPos = some ⟨7, 7⟩ ∧
    ¬((update env0 frameEdge hoverState).smoothedPos = none) := by
  decide

/-- Claim C2 witness: the amended statement at concrete runs of both the
no-landmarks branch and the out-of-zone branch. -/
theorem tracking_loss_witness :
    (update env0 frameLost drawState).mode = IDLE ∧
    (update env0 frameLost drawState).smoothedPos = none ∧
    (update env0 frameLost drawState).currentPath = [] ∧
    (update env0 frameEdge drawState).mode = IDLE ∧
    (update env0 frameEdge drawState).smoothedPos = drawState.smoothedPos := by
  have h1 := (tracking_loss env0 frameLost drawState).1 rfl
  have h2 := (tracking_loss env0 frameEdge drawState).2
    { detPinch with indexTip := ⟨99/100, 1/2⟩, pinchMid := ⟨99/100, 1/2⟩ } rfl (by decide)
  exact ⟨h1.1, h1.2.1, (h1.2.2 rfl).1, h2.1, h2.2.1⟩

/-- Claim C3 witness: five pinch frames from the initial state; the mode is
not DRAWING after 3 frames, becomes DRAWING after 4, the stroke opens as the
one-point path at the filtered position, and a releasing frame from HOVER
resets the counter to 0. -/
theorem pinch_entry_debounce_witness :
    (updates env0 ((List.replicate 5 framePinch).take 4) initState).mode = DRAWING ∧
    ¬((updates env0 ((List.replicate 5 framePinch).take 3) initState).mode = DRAWING) ∧
    (updates env0 ((List.replicate 5 framePinch).take 4) initState).currentPath =
      [(updates env0 ((List.replicate 5 framePinch).take 4) initState).cursorPos] ∧
    (update env0 frameRelease hoverState).consecutivePinchFrames = 0 := by
  have h := pinch_entry_debounce env0 (1/20) (List.replicate 5 framePinch) initState
    (by norm_num [PINCH_START_THRESHOLD])
    (fun f hf => by
      rw [List.eq_of_mem_replicate hf]
      exact ⟨detPinch, rfl, rfl, rfl, rfl, by decide⟩)
    (Or.inl rfl) rfl rfl rfl
  refine ⟨(h.1 4 (by decide)).mpr (by decide), ?_, (h.2.2.1 (by decide)).1, ?_⟩
  · intro hc
    have h43 := (h.1 3 (by decide)).mp hc
    omega
  · exact h.2.2.2 frameRelease { detPinch with pinchVal := 1/5 } hoverState rfl
      (by norm_num [PINCH_START_THRESHOLD]) rfl rfl (by decide) rfl (by decide)

/-- Claim C4 witness: ratios oscillating between 0.10 and 0.13 over four
frames keep the mode DRAWING with the exit counter held at the ceiling. -/
theorem hysteresis_band_witness :
    (updates env0 ([frameBandLo, frameBandHi, frameBandLo, frameBandHi].take 4)
      drawState).mode = DRAWING ∧
    (updates env0 ([frameBandLo, frameBandHi, frameBandLo, frameBandHi].take 4)
      drawState).consecutivePinchFrames = PINCH_DEBOUNCE_FRAMES := by
  have h := hysteresis_band env0 [frameBandLo, frameBandHi, frameBandLo, frameBandHi]
    drawState rfl rfl
    (by
      intro f hf
      simp only [List.mem_cons, List.not_mem_nil, or_false] at hf
      rcases hf with h | h | h | h <;> subst h <;>
        first
          | exact ⟨{ detPinch with pinchVal := 1/10 }, rfl,
              by norm_num [PINCH_END_THRESHOLD], by decide⟩
          | exact ⟨{ detPinch with pinchVal := 13/100 }, rfl,
              by norm_num [PINCH_END_THRESHOLD], by decide⟩)
  exact ⟨h.1 4 (by decide), h.2 4 (by decide) (by decide)⟩

/-- Claim C5 witness: with the cursor held at (50, 50), inside the btn-pen
rectangle of envR, nothing fires through 18 frames and the btn-pen selection
fires exactly once on the 19th. -/
theorem dwell_selection_witness :
    (uiIter envR 18 dwellState).clicks = dwellState.clicks ∧
    (uiIter envR 19 dwellState).clicks = dwellState.clicks ++ ["btn-pen"] ∧
    (uiIter envR 19 dwellState).hoveredId = none := by
  have h := dwell_selection envR dwellState "btn-pen" (by decide) rfl rfl
  exact ⟨h.1 18 (le_refl 18), h.2.1.1, h.2.1.2.1⟩

/-- Claim C10 witness: the centered pinch frame passes the mirrored zone
test and seeds the filter with the mirrored, scaled point. -/
theorem mirror_convention_witness :
    isInSafeZone (mirrored (rawOf initState.isMenuOpen detPinch)) = true ∧
    (update env0 framePinch initState).smoothedPos =
      some ⟨(1 - (rawOf initState.isMenuOpen detPinch).x) * framePinch.width,
            (rawOf initState.isMenuOpen detPinch).y * framePinch.height⟩ := by
  have h := mirror_convention env0 framePinch detPinch initState rfl
  have hz : isInSafeZone (mirrored (rawOf initState.isMenuOpen detPinch)) = true := by decide
  exact ⟨hz, (h.2.2 hz rfl).1⟩

end ConcreteRuns

end GC
